import Mathlib

/-!
Verification of the vcsstore repository registry (`service.go`).

The development shallowly embeds the registry core: the `service` struct with
its three maps (`repoMu`, `repos`, `repoUsers`), the operations `Open`,
`open` (here `openDir`), `Close`, `Clone` and `Mutex`, and a small model of
the on-disk state the code consults (stat, backend-type detection, the
clone-to-temporary-sibling-then-rename dance).  Go maps are embedded as
association lists; Go handles (the `interface\x7b\x7d` repository values) are
numbered by a fresh-id counter so that handle identity is expressible.
-/

namespace Vcsstore

/-! ### Association lists: the embedding of Go maps -/

/-- Lookup of a key in an association list, mirroring a Go map read that
distinguishes presence (`v, ok := m[k]`). -/
def lookupKey {α : Type} : List (String × α) → String → Option α
  | [], _ => none
  | (k', v) :: t, k => if k' = k then some v else lookupKey t k

/-- Removal of a key, mirroring Go `delete(m, k)`. -/
def eraseKey {α : Type} : List (String × α) → String → List (String × α)
  | [], _ => []
  | (k', v) :: t, k => if k' = k then eraseKey t k else (k', v) :: eraseKey t k

/-- Update of a key, mirroring Go `m[k] = v`. -/
def setKey {α : Type} (l : List (String × α)) (k : String) (v : α) : List (String × α) :=
  (k, v) :: eraseKey l k

theorem lookupKey_eraseKey {α : Type} (l : List (String × α)) (k k' : String) :
    lookupKey (eraseKey l k) k' = if k = k' then none else lookupKey l k' := by
  induction l with
  | nil => simp [eraseKey, lookupKey]
  | cons p t ih =>
    rcases p with ⟨a, v⟩
    by_cases h1 : a = k
    · subst h1
      simp only [eraseKey, if_pos rfl, ih, lookupKey]
      by_cases h2 : a = k'
      · subst h2; simpa using ih
      · simpa [h2] using ih
    · simp only [eraseKey, if_neg h1, lookupKey]
      by_cases h2 : a = k'
      · have hkk : ¬ k = k' := fun h => h1 (h2.trans h.symm)
        simp [h2, hkk]
      · simp [h2, ih]

theorem lookupKey_setKey {α : Type} (l : List (String × α)) (k k' : String) (v : α) :
    lookupKey (setKey l k v) k' = if k = k' then some v else lookupKey l k' := by
  by_cases h : k = k'
  · simp [setKey, lookupKey, h]
  · simp [setKey, lookupKey, h, lookupKey_eraseKey]

theorem lookupKey_setKey_self {α : Type} (l : List (String × α)) (k : String) (v : α) :
    lookupKey (setKey l k v) k = some v := by
  simp [lookupKey_setKey]

theorem lookupKey_setKey_ne {α : Type} (l : List (String × α)) (k k' : String) (v : α)
    (h : k ≠ k') : lookupKey (setKey l k v) k' = lookupKey l k' := by
  simp [lookupKey_setKey, h]

theorem lookupKey_eraseKey_self {α : Type} (l : List (String × α)) (k : String) :
    lookupKey (eraseKey l k) k = none := by
  simp [lookupKey_eraseKey]

theorem lookupKey_eraseKey_ne {α : Type} (l : List (String × α)) (k k' : String)
    (h : k ≠ k') : lookupKey (eraseKey l k) k' = lookupKey l k' := by
  simp [lookupKey_eraseKey, h]

/-! ### Errors

Error classes visible to the registry and its callers.  `notExist` stands for
any error satisfying the Go predicate `os.IsNotExist`. -/

inductive VcsError where
  /-- an os.IsNotExist-satisfying error for the given path -/
  | notExist (path : String)
  /-- the error built by `fmt.Errorf("clone path %q is not a directory", dir)` -/
  | notDir (path : String)
  /-- no VCS backend claims the directory (UnrecognizedRepository) -/
  | unrecognized (path : String)
  /-- `vcs.Open` failed on the directory -/
  | openFailed (path : String)
  /-- the Clone Executor (`vcs.Clone`) failed -/
  | cloneFailed
deriving DecidableEq, Repr

/-- Embedding of `os.IsNotExist` on the error classes above. -/
def VcsError.isNotExist : VcsError → Bool
  | .notExist _ => true
  | _ => false

/-- Go writes `!os.IsNotExist(err)` where `err` may be nil: on a nil error
(`Except.ok`) `os.IsNotExist` is false. -/
def resIsNotExist {α : Type} : Except VcsError α → Bool
  | .error e => e.isNotExist
  | .ok _ => false

/-! ### The disk model

The registry consults the filesystem through `os.Stat`, backend-type
detection, `vcs.Open`, and mutates it in `Clone` (MkdirAll, TempDir,
`vcs.Clone`, Rename, RemoveAll).  A disk is a finite map from paths to
entries; an absent path means the file or directory does not exist. -/

inductive Entry where
  /-- the path exists but is not a directory -/
  | file
  /-- a directory; `vcsType` names the backend claiming it (`none` when no
  backend recognizes the contents); `openable` records whether `vcs.Open`
  succeeds on it -/
  | dir (vcsType : Option String) (openable : Bool)
deriving DecidableEq, Repr

abbrev Disk := List (String × Entry)

/-- Modelled from the spec: the Path Encoder (`EncodeRepositoryPath`, whose
definition is not part of the given sources) is a pure, deterministic,
collision-free mapping from a repository path to a filesystem-safe relative
path.  Its exact escaping is irrelevant to every claim, so it is modelled as
the identity embedding, which is deterministic and injective. -/
def EncodeRepositoryPath (repoPath : String) : String := repoPath

/-- Model of Go `filepath.Join` on two already-clean components. -/
def filepathJoin (a b : String) : String :=
  if a = "" ∨ a = "." then b else a ++ "/" ++ b

/-- Split a character list at its last '/' into the part before and the
part after; `none` when no '/' occurs. -/
def splitLastSlash : List Char → Option (List Char × List Char)
  | [] => none
  | c :: t =>
    match splitLastSlash t with
    | some (d, b) => some (c :: d, b)
    | none => if c = '/' then some ([], t) else none

/-- Model of Go `filepath.Dir` on a clean path: everything before the last
separator, or "." when there is none. -/
def filepathDir (p : String) : String :=
  match splitLastSlash p.toList with
  | some (d, _) => String.mk d
  | none => "."

/-- Model of Go `filepath.Base` on a clean path: everything after the last
separator, or the path itself when there is none. -/
def filepathBase (p : String) : String :=
  match splitLastSlash p.toList with
  | some (_, b) => String.mk b
  | none => p

/-- Name of the temporary sibling directory created by
`ioutil.TempDir(parentDir, "_tmp_"+filepath.Base(cloneDir)+"-")`.  TempDir
appends a fresh random suffix; the model uses a fixed one, which is unique
because nothing else in the model creates names under this prefix. -/
def tempDirName (parentDir base : String) : String :=
  filepathJoin parentDir ("_tmp_" ++ base ++ "-0")

/-- Model of `os.MkdirAll(parentDir, 0700)`: a no-op if the path already
exists, otherwise it creates the directory (ancestors are irrelevant to the
claims and elided). -/
def mkdirAll (p : String) (d : Disk) : Disk :=
  match lookupKey d p with
  | some _ => d
  | none => setKey d p (Entry.dir none true)

/-- Modelled from the spec: backend-type detection (`vcsTypeFromDir`, whose
definition is not part of the given sources) inspects the directory
structure on disk and answers which backend claims it, failing with an
UnrecognizedRepository condition when no backend does.  Inspecting an absent
path yields an os.IsNotExist-satisfying error, as Go directory reads do (and
as `Clone` relies on: its `!os.IsNotExist(err)` guards only work if `open`
reports IsNotExist for absent clone directories). -/
def vcsTypeFromDir (dir : String) (d : Disk) : Except VcsError String :=
  match lookupKey d dir with
  | none => .error (.notExist dir)
  | some .file => .error (.unrecognized dir)
  | some (.dir none _) => .error (.unrecognized dir)
  | some (.dir (some t) _) => .ok t

/-- Model of `os.Stat` followed by the `fi.Mode().IsDir()` check: reports
whether the path is a directory, or the stat error. -/
def statIsDir (p : String) (d : Disk) : Except VcsError Bool :=
  match lookupKey d p with
  | none => .error (.notExist p)
  | some .file => .ok false
  | some (.dir _ _) => .ok true

/-- Model of the external `vcs.Open(vcsType, cloneDir)` backend factory on a
directory already known to exist. -/
def vcsOpen (p : String) (d : Disk) : Except VcsError Unit :=
  match lookupKey d p with
  | some (.dir _ true) => .ok ()
  | _ => .error (.openFailed p)

/-! ### The registry state (`service` struct) -/

/-- Embedding of `vcsclient.CloneInfo` (the fields the registry reads). -/
structure CloneInfo where
  vcs : String
  cloneURL : String
deriving DecidableEq, Repr

/-- Embedding of the `service` struct: its `Config.StorageDir`, the three
maps `repoMu`, `repos`, `repoUsers` (keys are the `cloneDir` strings wrapped
in `repoKey` by the source), plus model bookkeeping: fresh-id counters for
handles and lock objects, and the disk state the service runs against.
The structural mutex `repoMuMu` guards the maps; operations on them are
embedded as atomic. -/
structure ServiceState where
  storageDir : String
  /-- `repoMu`: Clone Directory to per-directory lock object (by id) -/
  repoMu : List (String × Nat)
  /-- `repos`: Clone Directory to live repository handle (by id) -/
  repos : List (String × Nat)
  /-- `repoUsers`: Clone Directory to reference count (a Go `int`) -/
  repoUsers : List (String × Int)
  nextHandle : Nat
  nextLock : Nat
  disk : Disk
deriving DecidableEq, Repr

/-- Go map read with the zero value for a missing key, as in
`s.repoUsers[key]`. -/
def readCount (l : List (String × Int)) (k : String) : Int :=
  (lookupKey l k).getD 0

/-- Embedding of `Config.CloneDir`: join the storage dir with the encoded
repository path.  The source always returns a nil error. -/
def cloneDirOf (storageDir repoPath : String) : String :=
  filepathJoin storageDir (EncodeRepositoryPath repoPath)

/-- Embedding of `(*Config).CloneDir` with its error return. -/
def CloneDir (storageDir repoPath : String) : Except VcsError String :=
  .ok (cloneDirOf storageDir repoPath)

/-- Embedding of `(*service).open(cloneDir)`, faithful to the order of
operations in the source: backend-type detection first, then the `repos`
cache check under the structural mutex, then stat, the not-a-directory
check, `vcs.Open`, and finally the refcount increment and the
raced-installation re-check under the structural mutex.  Returns the handle
(or error) together with the updated state. -/
def openDir (cloneDir : String) (s : ServiceState) :
    Except VcsError Nat × ServiceState :=
  match vcsTypeFromDir cloneDir s.disk with
  | .error e => (.error e, s)
  | .ok _vcsType =>
    -- Quick check if the repo is already open; use that instance if so.
    match lookupKey s.repos cloneDir with
    | some repo => (.ok repo, s)
    | none =>
      match statIsDir cloneDir s.disk with
      | .error e => (.error e, s)
      | .ok isDir =>
        if !isDir then (.error (.notDir cloneDir), s)
        else
          match vcsOpen cloneDir s.disk with
          | .error e => (.error e, s)
          | .ok _ =>
            -- The source increments `repoUsers[key]` and then re-checks
            -- `repos[key]` for a raced installation; the increment leaves
            -- `repos` untouched, so the re-check reads the same map.
            match lookupKey s.repos cloneDir with
            | some repo =>
              -- Another goroutine raced us to open this repo; use theirs.
              (.ok repo,
               { s with repoUsers :=
                   setKey s.repoUsers cloneDir (readCount s.repoUsers cloneDir + 1) })
            | none =>
              (.ok s.nextHandle,
               { s with
                  repoUsers := setKey s.repoUsers cloneDir (readCount s.repoUsers cloneDir + 1),
                  repos := setKey s.repos cloneDir s.nextHandle,
                  nextHandle := s.nextHandle + 1 })

/-- Embedding of `(*service).Open(repoPath)`. -/
def Open (repoPath : String) (s : ServiceState) :
    Except VcsError Nat × ServiceState :=
  match CloneDir s.storageDir repoPath with
  | .error e => (.error e, s)
  | .ok cloneDir => openDir cloneDir s

/-- Embedding of `(*service).Close(repoPath)`.  `none` is the panic on a
`CloneDir` error.  The Go decrement `s.repoUsers[key]--` reads the zero
value for a missing key and always stores the result. -/
def Close (repoPath : String) (s : ServiceState) : Option ServiceState :=
  match CloneDir s.storageDir repoPath with
  | .error _ => none
  | .ok cloneDir =>
    let users := setKey s.repoUsers cloneDir (readCount s.repoUsers cloneDir - 1)
    if readCount users cloneDir = 0 then
      some { s with repoUsers := eraseKey users cloneDir,
                    repos := eraseKey s.repos cloneDir }
    else
      some { s with repoUsers := users }

/-- Embedding of `(*service).Mutex(key)`: return the existing per-directory
lock, or lazily create, store and return a fresh one. -/
def Mutex (key : String) (s : ServiceState) : Nat × ServiceState :=
  match lookupKey s.repoMu key with
  | some mu => (mu, s)
  | none =>
    (s.nextLock,
     { s with repoMu := setKey s.repoMu key s.nextLock, nextLock := s.nextLock + 1 })

/-- Embedding of the disk-mutating segment of `Clone` (lines creating the
parent directory, the temporary sibling directory, running `vcs.Clone` into
it, renaming it over the target, and the deferred `os.RemoveAll` of the
temporary directory).  `execOk` is the outcome of the external Clone
Executor.  Returns the executor error, if any, with the resulting disk. -/
def cloneToDisk (cloneDir : String) (info : CloneInfo) (execOk : Bool) (d : Disk) :
    Option VcsError × Disk :=
  let parentDir := filepathDir cloneDir
  let d1 := mkdirAll parentDir d
  let tmpDir := tempDirName parentDir (filepathBase cloneDir)
  let d2 := setKey d1 tmpDir (Entry.dir none true)
  if execOk then
    -- vcs.Clone fills the temporary directory with a valid repository,
    -- then os.Rename moves it to cloneDir; the deferred RemoveAll of the
    -- (now absent) temporary directory is a no-op.
    let d3 := setKey d2 tmpDir (Entry.dir (some info.vcs) true)
    let d4 := setKey (eraseKey d3 tmpDir) cloneDir (Entry.dir (some info.vcs) true)
    (none, eraseKey d4 tmpDir)
  else
    -- the executor failed; the deferred os.RemoveAll(cloneTmpDir) runs.
    (some .cloneFailed, eraseKey d2 tmpDir)

/-- Embedding of `(*service).Clone(repoPath, cloneInfo)`.  Faithful to the
source: the pre-lock existence check calls `open` on `repoPath` (not on
`cloneDir`), then the per-directory lock from `Mutex` is taken, `open` is
re-checked on `cloneDir`, and only then is the clone performed and the
result opened.  In this sequential embedding the lock acquisition itself is
uncontended; `execOk` is the Clone Executor outcome. -/
def Clone (repoPath : String) (info : CloneInfo) (execOk : Bool)
    (s : ServiceState) : Except VcsError Nat × ServiceState :=
  match CloneDir s.storageDir repoPath with
  | .error e => (.error e, s)
  | .ok cloneDir =>
    -- See if the clone directory exists and return immediately (without
    -- locking) if so.  The source passes repoPath here, not cloneDir.
    let pre := openDir repoPath s
    if !(resIsNotExist pre.1) then pre
    else
      let locked := Mutex cloneDir pre.2
      -- Check again after obtaining the lock.
      let post := openDir cloneDir locked.2
      if !(resIsNotExist post.1) then post
      else
        match cloneToDisk cloneDir info execOk post.2.disk with
        | (some e, d) => (.error e, { post.2 with disk := d })
        | (none, d) => openDir cloneDir { post.2 with disk := d }

/-! ### Traces of public registry operations -/

/-- A public registry operation, as invoked by the HTTP layer. -/
inductive Op where
  | doOpen (repoPath : String)
  | doClose (repoPath : String)
  | doClone (repoPath : String) (info : CloneInfo) (execOk : Bool)
deriving DecidableEq, Repr

/-- Effect of one public operation on the registry state (a `Close` panic,
which never happens, would leave the state unchanged). -/
def stepOp (s : ServiceState) : Op → ServiceState
  | .doOpen rp => (Open rp s).2
  | .doClose rp => (Close rp s).getD s
  | .doClone rp info execOk => (Clone rp info execOk s).2

/-- Effect of a sequence of public operations. -/
def run (s : ServiceState) (ops : List Op) : ServiceState :=
  ops.foldl stepOp s

/-! ### Characterization and frame lemmas for `openDir` -/

theorem openDir_absent (dir : String) (s : ServiceState)
    (h : lookupKey s.disk dir = none) :
    openDir dir s = (.error (.notExist dir), s) := by
  simp [openDir, vcsTypeFromDir, h]

theorem openDir_cached (dir : String) (s : ServiceState) (t : String) (b : Bool)
    (hd : lookupKey s.disk dir = some (Entry.dir (some t) b))
    (h : lookupKey s.repos dir = some hid) :
    openDir dir s = (.ok hid, s) := by
  simp [openDir, vcsTypeFromDir, hd, h]

theorem openDir_slow (dir : String) (s : ServiceState) (t : String)
    (hd : lookupKey s.disk dir = some (Entry.dir (some t) true))
    (h : lookupKey s.repos dir = none) :
    openDir dir s =
      (.ok s.nextHandle,
       { s with repoUsers := setKey s.repoUsers dir (readCount s.repoUsers dir + 1),
                repos := setKey s.repos dir s.nextHandle,
                nextHandle := s.nextHandle + 1 }) := by
  simp [openDir, vcsTypeFromDir, statIsDir, vcsOpen, hd, h]

theorem openDir_disk (dir : String) (s : ServiceState) :
    (openDir dir s).2.disk = s.disk := by
  unfold openDir
  repeat' split
  all_goals rfl

theorem openDir_storageDir (dir : String) (s : ServiceState) :
    (openDir dir s).2.storageDir = s.storageDir := by
  unfold openDir
  repeat' split
  all_goals rfl

theorem openDir_repoMu (dir : String) (s : ServiceState) :
    (openDir dir s).2.repoMu = s.repoMu := by
  unfold openDir
  repeat' split
  all_goals rfl

theorem openDir_repos_ne (dir k : String) (s : ServiceState) (hne : dir ≠ k) :
    lookupKey (openDir dir s).2.repos k = lookupKey s.repos k := by
  unfold openDir
  repeat' split
  all_goals simp [lookupKey_setKey_ne _ _ _ _ hne]

theorem openDir_repoUsers_ne (dir k : String) (s : ServiceState) (hne : dir ≠ k) :
    lookupKey (openDir dir s).2.repoUsers k = lookupKey s.repoUsers k := by
  unfold openDir
  repeat' split
  all_goals simp [lookupKey_setKey_ne _ _ _ _ hne]

theorem Mutex_repos (key : String) (s : ServiceState) :
    (Mutex key s).2.repos = s.repos := by
  unfold Mutex
  repeat' split
  all_goals rfl

theorem Mutex_repoUsers (key : String) (s : ServiceState) :
    (Mutex key s).2.repoUsers = s.repoUsers := by
  unfold Mutex
  repeat' split
  all_goals rfl

theorem Mutex_disk (key : String) (s : ServiceState) :
    (Mutex key s).2.disk = s.disk := by
  unfold Mutex
  repeat' split
  all_goals rfl

theorem Mutex_storageDir (key : String) (s : ServiceState) :
    (Mutex key s).2.storageDir = s.storageDir := by
  unfold Mutex
  repeat' split
  all_goals rfl

theorem Mutex_repoMu_mono (key k : String) (s : ServiceState) (m : Nat)
    (h : lookupKey s.repoMu k = some m) :
    lookupKey (Mutex key s).2.repoMu k = some m := by
  unfold Mutex
  split
  · exact h
  · rename_i hk
    by_cases he : key = k
    · subst he; rw [hk] at h; exact absurd h (by simp)
    · simpa [lookupKey_setKey_ne _ _ _ _ he] using h

theorem Open_repoMu (rp : String) (s : ServiceState) :
    (Open rp s).2.repoMu = s.repoMu := by
  simp [Open, CloneDir, openDir_repoMu]

theorem Open_storageDir (rp : String) (s : ServiceState) :
    (Open rp s).2.storageDir = s.storageDir := by
  simp [Open, CloneDir, openDir_storageDir]

/-- Reduction of `Close` when the refcount stays away from zero: the Go
decrement stores the new value and nothing is removed. -/
theorem Close_decr (rp : String) (s : ServiceState) (c : Int)
    (h : lookupKey s.repoUsers (cloneDirOf s.storageDir rp) = some c) (hne : c ≠ 1) :
    Close rp s =
      some { s with repoUsers := setKey s.repoUsers (cloneDirOf s.storageDir rp) (c - 1) } := by
  have h0 : readCount s.repoUsers (cloneDirOf s.storageDir rp) = c := by
    simp [readCount, h]
  have h1 : readCount (setKey s.repoUsers (cloneDirOf s.storageDir rp) (c - 1))
      (cloneDirOf s.storageDir rp) = c - 1 := by
    simp [readCount, lookupKey_setKey_self]
  simp [Close, CloneDir, h0, h1, sub_eq_zero, hne]

/-- Reduction of `Close` when the refcount reaches zero: both the refcount
entry and the handle entry are removed. -/
theorem Close_last (rp : String) (s : ServiceState)
    (h : lookupKey s.repoUsers (cloneDirOf s.storageDir rp) = some 1) :
    Close rp s =
      some { s with
              repoUsers := eraseKey (setKey s.repoUsers (cloneDirOf s.storageDir rp) 0)
                (cloneDirOf s.storageDir rp),
              repos := eraseKey s.repos (cloneDirOf s.storageDir rp) } := by
  have h0 : readCount s.repoUsers (cloneDirOf s.storageDir rp) = 1 := by
    simp [readCount, h]
  have h1 : readCount (setKey s.repoUsers (cloneDirOf s.storageDir rp) 0)
      (cloneDirOf s.storageDir rp) = 0 := by
    simp [readCount, lookupKey_setKey_self]
  simp [Close, CloneDir, h0, h1]

/-- Reduction of `Close` on an untracked key: the Go decrement reads the
zero value and stores -1; -1 is not 0, so nothing is removed. -/
theorem Close_untracked (rp : String) (s : ServiceState)
    (h : lookupKey s.repoUsers (cloneDirOf s.storageDir rp) = none) :
    Close rp s =
      some { s with repoUsers := setKey s.repoUsers (cloneDirOf s.storageDir rp) (-1) } := by
  have h0 : readCount s.repoUsers (cloneDirOf s.storageDir rp) = 0 := by
    simp [readCount, h]
  have h1 : readCount (setKey s.repoUsers (cloneDirOf s.storageDir rp) (-1))
      (cloneDirOf s.storageDir rp) = -1 := by
    simp [readCount, lookupKey_setKey_self]
  simp [Close, CloneDir, h0, h1]

/-- The state after `Close` differs from the input state at most in
`repoUsers` and `repos`. -/
theorem Close_shape (rp : String) (s : ServiceState) :
    ∃ u r, (Close rp s).getD s = { s with repoUsers := u, repos := r } := by
  rcases h : lookupKey s.repoUsers (cloneDirOf s.storageDir rp) with _ | c
  · exact ⟨_, s.repos, by rw [Close_untracked rp s h]; rfl⟩
  · by_cases hc : c = 1
    · subst hc
      exact ⟨_, _, by rw [Close_last rp s h]; rfl⟩
    · exact ⟨_, s.repos, by rw [Close_decr rp s c h hc]; rfl⟩

theorem Close_repoMu (rp : String) (s : ServiceState) :
    ((Close rp s).getD s).repoMu = s.repoMu := by
  obtain ⟨u, r, hs⟩ := Close_shape rp s
  rw [hs]

theorem Close_disk (rp : String) (s : ServiceState) :
    ((Close rp s).getD s).disk = s.disk := by
  obtain ⟨u, r, hs⟩ := Close_shape rp s
  rw [hs]

theorem Close_storageDir (rp : String) (s : ServiceState) :
    ((Close rp s).getD s).storageDir = s.storageDir := by
  obtain ⟨u, r, hs⟩ := Close_shape rp s
  rw [hs]

/-- Reduction of `Clone` in the cold case: both existence checks report
NotFound (the pre-lock check on `repoPath`, the post-lock check on the clone
directory), so the clone is performed and its result opened. -/
theorem Clone_notfound (rp : String) (info : CloneInfo) (execOk : Bool)
    (s : ServiceState)
    (hrp : lookupKey s.disk rp = none)
    (hcd : lookupKey s.disk (cloneDirOf s.storageDir rp) = none) :
    Clone rp info execOk s =
      match cloneToDisk (cloneDirOf s.storageDir rp) info execOk s.disk with
      | (some e, d) =>
        (.error e, { (Mutex (cloneDirOf s.storageDir rp) s).2 with disk := d })
      | (none, d) =>
        openDir (cloneDirOf s.storageDir rp)
          { (Mutex (cloneDirOf s.storageDir rp) s).2 with disk := d } := by
  have h1 : openDir rp s = (.error (.notExist rp), s) := openDir_absent _ _ hrp
  have h2 : (Mutex (cloneDirOf s.storageDir rp) s).2.disk = s.disk := Mutex_disk _ _
  have h3 : openDir (cloneDirOf s.storageDir rp) (Mutex (cloneDirOf s.storageDir rp) s).2 =
      (.error (.notExist (cloneDirOf s.storageDir rp)),
       (Mutex (cloneDirOf s.storageDir rp) s).2) :=
    openDir_absent _ _ (by rw [h2]; exact hcd)
  simp only [Clone, CloneDir, h1, h3, resIsNotExist, VcsError.isNotExist,
    Bool.not_true, Bool.false_eq_true, if_false, h2]

theorem lookupKey_mkdirAll_ne (p k : String) (d : Disk) (h : p ≠ k) :
    lookupKey (mkdirAll p d) k = lookupKey d k := by
  unfold mkdirAll
  split
  · rfl
  · exact lookupKey_setKey_ne _ _ _ _ h

/-! ### Claim C1 -/

/-- A registry with one openable repository at clone directory "r"
(storage dir is empty, so the clone directory of "r" is "r"). -/
def c1State : ServiceState :=
  { storageDir := "", repoMu := [], repos := [], repoUsers := [],
    nextHandle := 0, nextLock := 0, disk := [("r", Entry.dir (some "git") true)] }

/-- C1, evaluated at the failing input: two `Open` calls on the same
available repository.  The first (slow-path) `Open` installs handle 0 with
refcount 1; the second hits the `repos` fast path and returns the same
handle 0 but leaves the refcount at 1, where the claim (and the comment on
the `repoUsers` field, which says the maps hold all repos opened and not
yet closed) requires 2.  A single `Close` then removes both entries,
freeing the handle while the second opener still holds it: the refcount
does not return to its prior value after matching Closes. -/
theorem C1_fast_path_skips_refcount :
    (Open "r" c1State).1 = .ok 0 ∧
    (Open "r" (Open "r" c1State).2).1 = .ok 0 ∧
    lookupKey (Open "r" (Open "r" c1State).2).2.repoUsers "r" = some 1 ∧
    Close "r" (Open "r" (Open "r" c1State).2).2 =
      some { c1State with nextHandle := 1 } := by
  refine ⟨rfl, rfl, by decide, by decide⟩

/-! ### Claim C3 -/

/-- A registry whose repository "r" is already cloned and openable at its
clone directory "repos/r" (storage dir "repos"). -/
def c3State : ServiceState :=
  { storageDir := "repos", repoMu := [], repos := [], repoUsers := [],
    nextHandle := 0, nextLock := 0, disk := [("repos/r", Entry.dir (some "git") true)] }

/-- C3, evaluated at the failing input: the repository is already cloned
and openable at its clone directory (a plain `openDir` of "repos/r"
succeeds, first conjunct), yet `Clone` acquires the per-directory lock
anyway (third conjunct: the `repoMu` map has gained the lock for
"repos/r"), because the source passes `repoPath` instead of `cloneDir` to
the pre-lock `open` check, which therefore fails with NotFound (fourth
conjunct) rather than succeeding without the lock. -/
theorem C3_prelock_check_opens_wrong_path :
    (openDir (cloneDirOf "repos" "r") c3State).1 = .ok 0 ∧
    (Clone "r" ⟨"git", "u"⟩ true c3State).1 = .ok 0 ∧
    lookupKey (Clone "r" ⟨"git", "u"⟩ true c3State).2.repoMu "repos/r" = some 0 ∧
    (openDir "r" c3State).1 = .error (.notExist "r") := by
  refine ⟨rfl, rfl, by decide, rfl⟩

/-! ### Claim C4 -/

/-- C4: when the Clone Executor fails during a cold `Clone` (both existence
checks report NotFound), the executor error is surfaced to the caller, the
temporary sibling directory has been removed, and the target clone
directory does not exist afterward; the failure path never writes to the
target, so it is never partially written. -/
theorem C4_executor_failure_cleanup (rp : String) (info : CloneInfo)
    (s : ServiceState) (cd parent tmp : String)
    (hceq : cd = cloneDirOf s.storageDir rp)
    (hpeq : parent = filepathDir cd)
    (hteq : tmp = tempDirName parent (filepathBase cd))
    (hrp : lookupKey s.disk rp = none)
    (hdcd : lookupKey s.disk cd = none)
    (hpc : parent ≠ cd) (htc : tmp ≠ cd) :
    (Clone rp info false s).1 = .error .cloneFailed ∧
    lookupKey (Clone rp info false s).2.disk cd = none ∧
    lookupKey (Clone rp info false s).2.disk tmp = none := by
  subst hceq; subst hpeq; subst hteq
  rw [Clone_notfound rp info false s hrp hdcd]
  simp only [cloneToDisk, Bool.false_eq_true, if_false]
  refine ⟨trivial, ?_, ?_⟩
  · rw [lookupKey_eraseKey_ne _ _ _ htc, lookupKey_setKey_ne _ _ _ _ htc,
      lookupKey_mkdirAll_ne _ _ _ hpc]
    exact hdcd
  · exact lookupKey_eraseKey_self _ _

/-- A cold registry for the C4 witness: storage dir "repos", nothing on
disk. -/
def c4State : ServiceState :=
  { storageDir := "repos", repoMu := [], repos := [], repoUsers := [],
    nextHandle := 0, nextLock := 0, disk := [] }

theorem C4_executor_failure_cleanup_witness :
    lookupKey c4State.disk "r" = none ∧
    lookupKey c4State.disk "repos/r" = none ∧
    ("repos" : String) ≠ "repos/r" ∧
    ("repos/_tmp_r-0" : String) ≠ "repos/r" ∧
    ((Clone "r" ⟨"git", "u"⟩ false c4State).1 = .error .cloneFailed ∧
     lookupKey (Clone "r" ⟨"git", "u"⟩ false c4State).2.disk "repos/r" = none ∧
     lookupKey (Clone "r" ⟨"git", "u"⟩ false c4State).2.disk "repos/_tmp_r-0" = none) :=
  ⟨rfl, rfl, by decide, by decide,
   C4_executor_failure_cleanup "r" ⟨"git", "u"⟩ c4State "repos/r" "repos" "repos/_tmp_r-0"
     (by decide) (by decide) (by decide) rfl rfl (by decide) (by decide)⟩

/-! ### Claim C6 -/

/-- C6: when the clone directory of an identity does not exist on disk (and
no handle is cached for it), `Open` fails with the os.IsNotExist-satisfying
error, and that error class is distinguishable from every other error class
the registry produces, so callers can decide to `Clone` instead. -/
theorem C6_open_absent_notfound (rp : String) (s : ServiceState)
    (hdisk : lookupKey s.disk (cloneDirOf s.storageDir rp) = none)
    (_hcache : lookupKey s.repos (cloneDirOf s.storageDir rp) = none) :
    Open rp s = (.error (.notExist (cloneDirOf s.storageDir rp)), s) ∧
    (VcsError.notExist (cloneDirOf s.storageDir rp)).isNotExist = true ∧
    (∀ p, (VcsError.notDir p).isNotExist = false) ∧
    (∀ p, (VcsError.unrecognized p).isNotExist = false) ∧
    (∀ p, (VcsError.openFailed p).isNotExist = false) ∧
    VcsError.cloneFailed.isNotExist = false := by
  refine ⟨?_, rfl, fun p => rfl, fun p => rfl, fun p => rfl, rfl⟩
  simp only [Open, CloneDir]
  exact openDir_absent _ _ hdisk

theorem C6_open_absent_notfound_witness :
    lookupKey c4State.disk (cloneDirOf c4State.storageDir "r") = none ∧
    lookupKey c4State.repos (cloneDirOf c4State.storageDir "r") = none ∧
    Open "r" c4State = (.error (.notExist (cloneDirOf c4State.storageDir "r")), c4State) :=
  ⟨rfl, rfl, (C6_open_absent_notfound "r" c4State rfl rfl).1⟩

/-! ### Claim C8 -/

/-- A registry state whose cache holds a live handle 7 for clone directory
"d" while the directory no longer exists on disk. -/
def c8State : ServiceState :=
  { storageDir := "", repoMu := [], repos := [("d", 7)], repoUsers := [("d", 1)],
    nextHandle := 8, nextLock := 0, disk := [] }

/-- C8 counterexample: `open` does not check the `handles` cache before all
filesystem access.  Backend-type detection runs first: with handle 7 cached
for "d" but the directory absent on disk, `Open` fails with NotFound
instead of returning the cached handle without touching the disk, which is
what the claim requires. -/
theorem C8_detection_precedes_cache :
    lookupKey c8State.repos "d" = some 7 ∧
    Open "d" c8State = (.error (.notExist "d"), c8State) := by
  refine ⟨by decide, rfl⟩

/-- C8 as amended: the stat and the backend-factory `vcs.Open` call are
performed only after a cache miss, but backend-type detection runs before
the cache check.  When detection succeeds, a cached `Open` returns the
cached handle with no state change, and neither the stat result nor the
openability of the directory is consulted: the conclusion holds for any
`b`, including directories on which `vcs.Open` would fail. -/
theorem C8_cache_hit_after_detection (dir : String) (s : ServiceState)
    (t : String) (b : Bool) (hid : Nat)
    (hd : lookupKey s.disk dir = some (Entry.dir (some t) b))
    (hc : lookupKey s.repos dir = some hid) :
    openDir dir s = (.ok hid, s) :=
  openDir_cached dir s t b hd hc

/-- A registry caching handle 7 for "d" whose directory is present but on
which `vcs.Open` would fail (openable is false). -/
def c8HitState : ServiceState :=
  { storageDir := "", repoMu := [], repos := [("d", 7)], repoUsers := [("d", 1)],
    nextHandle := 8, nextLock := 0, disk := [("d", Entry.dir (some "git") false)] }

theorem C8_cache_hit_after_detection_witness :
    lookupKey c8HitState.disk "d" = some (Entry.dir (some "git") false) ∧
    lookupKey c8HitState.repos "d" = some 7 ∧
    openDir "d" c8HitState = (.ok 7, c8HitState) :=
  ⟨rfl, rfl, C8_cache_hit_after_detection "d" c8HitState "git" false 7 rfl rfl⟩

/-! ### Claim C7 -/

/-- `Close` applied `n` times for the same repository path. -/
def closeTimes (rp : String) : Nat → ServiceState → ServiceState
  | 0, s => s
  | n + 1, s => closeTimes rp n ((Close rp s).getD s)

/-- Draining lemma: from a refcount of `n + 1`, `n + 1` Closes remove both
the refcount entry and the handle entry, touch neither the disk nor the
storage dir, and leave every other key's entries unchanged. -/
theorem closeTimes_drain (rp : String) (n : Nat) : ∀ s : ServiceState,
    lookupKey s.repoUsers (cloneDirOf s.storageDir rp) = some ((n : Int) + 1) →
    lookupKey (closeTimes rp (n + 1) s).repoUsers (cloneDirOf s.storageDir rp) = none ∧
    lookupKey (closeTimes rp (n + 1) s).repos (cloneDirOf s.storageDir rp) = none ∧
    (closeTimes rp (n + 1) s).disk = s.disk ∧
    (closeTimes rp (n + 1) s).storageDir = s.storageDir := by
  induction n with
  | zero =>
    intro s h
    have h1 : Close rp s = some { s with
        repoUsers := eraseKey (setKey s.repoUsers (cloneDirOf s.storageDir rp) 0)
          (cloneDirOf s.storageDir rp),
        repos := eraseKey s.repos (cloneDirOf s.storageDir rp) } :=
      Close_last rp s (by simpa using h)
    simp only [closeTimes, h1, Option.getD_some]
    exact ⟨lookupKey_eraseKey_self _ _, lookupKey_eraseKey_self _ _, trivial, trivial⟩
  | succ m ih =>
    intro s h
    have hne : ((m : Int) + 1 + 1) ≠ 1 := by omega
    have h1 : Close rp s = some { s with
        repoUsers := setKey s.repoUsers (cloneDirOf s.storageDir rp) ((m : Int) + 1) } := by
      have := Close_decr rp s ((m : Int) + 1 + 1) (by exact_mod_cast h) hne
      simpa using this
    have hstep : (Close rp s).getD s = { s with
        repoUsers := setKey s.repoUsers (cloneDirOf s.storageDir rp) ((m : Int) + 1) } := by
      rw [h1]; rfl
    have hcount : lookupKey ((Close rp s).getD s).repoUsers
        (cloneDirOf ((Close rp s).getD s).storageDir rp) = some ((m : Int) + 1) := by
      rw [hstep]
      exact lookupKey_setKey_self _ _ _
    have hrec := ih ((Close rp s).getD s) hcount
    have hsd : ((Close rp s).getD s).storageDir = s.storageDir := Close_storageDir rp s
    have hdk : ((Close rp s).getD s).disk = s.disk := Close_disk rp s
    refine ⟨?_, ?_, ?_, ?_⟩
    · have := hrec.1; rw [hsd] at this; exact this
    · have := hrec.2.1; rw [hsd] at this; exact this
    · exact hrec.2.2.1.trans hdk
    · exact hrec.2.2.2.trans hsd

/-- C7: with a positive refcount `n` for an identity, calling `Close`
exactly `n` times removes both the handle entry and the refcount entry
(never touching the disk: the final disk is the initial disk, and `Close`
is oblivious to the disk component), and a subsequent `Open` behaves as a
cold open: with the clone directory absent on disk it fails NotFound. -/
theorem C7_n_closes_drain (rp : String) (s : ServiceState) (n : Nat)
    (hn : 0 < n)
    (hcount : lookupKey s.repoUsers (cloneDirOf s.storageDir rp) = some (n : Int)) :
    lookupKey (closeTimes rp n s).repoUsers (cloneDirOf s.storageDir rp) = none ∧
    lookupKey (closeTimes rp n s).repos (cloneDirOf s.storageDir rp) = none ∧
    (closeTimes rp n s).disk = s.disk ∧
    (∀ (t : ServiceState) (d : Disk),
      Close rp { t with disk := d } =
        (Close rp t).map (fun t2 => { t2 with disk := d })) ∧
    (lookupKey s.disk (cloneDirOf s.storageDir rp) = none →
      (Open rp (closeTimes rp n s)).1 =
        .error (.notExist (cloneDirOf s.storageDir rp))) := by
  obtain ⟨m, rfl⟩ := Nat.exists_eq_add_of_lt hn
  simp only [Nat.zero_add] at *
  have hdrain := closeTimes_drain rp m s (by exact_mod_cast hcount)
  refine ⟨hdrain.1, hdrain.2.1, hdrain.2.2.1, ?_, ?_⟩
  · intro t d
    rcases h : lookupKey t.repoUsers (cloneDirOf t.storageDir rp) with _ | c
    · rw [Close_untracked rp t h, Close_untracked rp { t with disk := d } h]; rfl
    · by_cases hc : c = 1
      · subst hc
        rw [Close_last rp t h, Close_last rp { t with disk := d } h]; rfl
      · rw [Close_decr rp t c h hc, Close_decr rp { t with disk := d } c h hc]; rfl
  · intro hdisk
    have habs : lookupKey (closeTimes rp (m + 1) s).disk
        (cloneDirOf (closeTimes rp (m + 1) s).storageDir rp) = none := by
      rw [hdrain.2.2.1, hdrain.2.2.2]; exact hdisk
    simp only [Open, CloneDir]
    rw [openDir_absent _ _ habs, hdrain.2.2.2]

/-- A registry holding repository "r" open with refcount 3. -/
def c7State : ServiceState :=
  { storageDir := "", repoMu := [], repos := [("r", 0)], repoUsers := [("r", 3)],
    nextHandle := 1, nextLock := 0, disk := [] }

theorem C7_n_closes_drain_witness :
    0 < 3 ∧
    lookupKey c7State.repoUsers (cloneDirOf c7State.storageDir "r") = some 3 ∧
    (lookupKey (closeTimes "r" 3 c7State).repoUsers
        (cloneDirOf c7State.storageDir "r") = none ∧
     lookupKey (closeTimes "r" 3 c7State).repos
        (cloneDirOf c7State.storageDir "r") = none) :=
  ⟨by decide, by decide,
   ⟨(C7_n_closes_drain "r" c7State 3 (by decide) (by decide)).1,
    (C7_n_closes_drain "r" c7State 3 (by decide) (by decide)).2.1⟩⟩

/-! ### Claim C9 -/

theorem Clone_repoMu_mono (rp : String) (info : CloneInfo) (execOk : Bool)
    (s : ServiceState) (k : String) (m : Nat)
    (h : lookupKey s.repoMu k = some m) :
    lookupKey (Clone rp info execOk s).2.repoMu k = some m := by
  simp only [Clone, CloneDir]
  by_cases hpre : resIsNotExist (openDir rp s).1 = true
  · simp only [hpre, Bool.not_true, Bool.false_eq_true, if_false]
    have h2 : lookupKey (Mutex (cloneDirOf s.storageDir rp) (openDir rp s).2).2.repoMu k
        = some m :=
      Mutex_repoMu_mono _ _ _ _ (by rw [openDir_repoMu]; exact h)
    by_cases hpost :
        resIsNotExist (openDir (cloneDirOf s.storageDir rp)
          (Mutex (cloneDirOf s.storageDir rp) (openDir rp s).2).2).1 = true
    · simp only [hpost, Bool.not_true, Bool.false_eq_true, if_false]
      rcases hct : cloneToDisk (cloneDirOf s.storageDir rp) info execOk
          (openDir (cloneDirOf s.storageDir rp)
            (Mutex (cloneDirOf s.storageDir rp) (openDir rp s).2).2).2.disk with ⟨oe, d⟩
      cases oe with
      | some e =>
        simp only [hct]
        rw [show ({ (openDir (cloneDirOf s.storageDir rp)
            (Mutex (cloneDirOf s.storageDir rp) (openDir rp s).2).2).2 with disk := d
            } : ServiceState).repoMu =
          (openDir (cloneDirOf s.storageDir rp)
            (Mutex (cloneDirOf s.storageDir rp) (openDir rp s).2).2).2.repoMu from rfl]
        rw [openDir_repoMu]
        exact h2
      | none =>
        simp only [hct]
        rw [openDir_repoMu]
        rw [show ({ (openDir (cloneDirOf s.storageDir rp)
            (Mutex (cloneDirOf s.storageDir rp) (openDir rp s).2).2).2 with disk := d
            } : ServiceState).repoMu =
          (openDir (cloneDirOf s.storageDir rp)
            (Mutex (cloneDirOf s.storageDir rp) (openDir rp s).2).2).2.repoMu from rfl]
        rw [openDir_repoMu]
        exact h2
    · simp only [hpost, Bool.not_false, if_true]
      rw [openDir_repoMu]
      exact h2
  · simp only [hpre, Bool.not_false, if_true]
    rw [openDir_repoMu]
    exact h

/-- One public operation never removes (or changes) an existing entry of
the `repoMu` lock map. -/
theorem stepOp_repoMu_mono (s : ServiceState) (op : Op) (k : String) (m : Nat)
    (h : lookupKey s.repoMu k = some m) :
    lookupKey (stepOp s op).repoMu k = some m := by
  cases op with
  | doOpen rp => rw [stepOp, Open_repoMu]; exact h
  | doClose rp => rw [stepOp, Close_repoMu]; exact h
  | doClone rp info execOk => exact Clone_repoMu_mono rp info execOk s k m h

theorem run_repoMu_mono (ops : List Op) : ∀ (s : ServiceState) (k : String) (m : Nat),
    lookupKey s.repoMu k = some m →
    lookupKey (run s ops).repoMu k = some m := by
  induction ops with
  | nil => intro s k m h; exact h
  | cons op rest ih =>
    intro s k m h
    exact ih (stepOp s op) k m (stepOp_repoMu_mono s op k m h)

/-- C9: per-directory locks are created lazily on first request (a miss
installs the fresh lock object under the key), `Mutex` is idempotent (a hit
returns the stored lock object and leaves the state unchanged, so repeated
requests yield the identical lock), and no public registry operation ever
removes an entry of the `locks` map. -/
theorem C9_mutex_lazy_idempotent_persistent :
    (∀ (k : String) (s : ServiceState), lookupKey s.repoMu k = none →
      (Mutex k s).1 = s.nextLock ∧
      lookupKey (Mutex k s).2.repoMu k = some s.nextLock) ∧
    (∀ (k : String) (s : ServiceState) (m : Nat), lookupKey s.repoMu k = some m →
      Mutex k s = (m, s)) ∧
    (∀ (k : String) (s : ServiceState),
      Mutex k ((Mutex k s).2) = ((Mutex k s).1, (Mutex k s).2)) ∧
    (∀ (s : ServiceState) (ops : List Op) (k : String) (m : Nat),
      lookupKey s.repoMu k = some m →
      lookupKey (run s ops).repoMu k = some m) := by
  have hmiss : ∀ (k : String) (s : ServiceState), lookupKey s.repoMu k = none →
      (Mutex k s).1 = s.nextLock ∧
      lookupKey (Mutex k s).2.repoMu k = some s.nextLock := by
    intro k s h
    simp [Mutex, h, lookupKey_setKey_self]
  have hhit : ∀ (k : String) (s : ServiceState) (m : Nat),
      lookupKey s.repoMu k = some m → Mutex k s = (m, s) := by
    intro k s m h
    simp [Mutex, h]
  refine ⟨hmiss, hhit, ?_, fun s ops k m h => run_repoMu_mono ops s k m h⟩
  intro k s
  rcases h : lookupKey s.repoMu k with _ | m
  · have h1 := hmiss k s h
    have h2 := hhit k (Mutex k s).2 s.nextLock h1.2
    rw [h2, h1.1]
  · have h1 := hhit k s m h
    rw [h1]
    exact hhit k s m h

/-- An empty registry for the C9 witness. -/
def c9State : ServiceState :=
  { storageDir := "", repoMu := [], repos := [], repoUsers := [],
    nextHandle := 0, nextLock := 0, disk := [] }

theorem C9_mutex_lazy_idempotent_persistent_witness :
    lookupKey c9State.repoMu "k" = none ∧
    lookupKey (Mutex "k" c9State).2.repoMu "k" = some 0 ∧
    Mutex "k" (Mutex "k" c9State).2 = (0, (Mutex "k" c9State).2) ∧
    lookupKey (run (Mutex "k" c9State).2 [.doClose "k", .doOpen "k"]).repoMu "k" = some 0 := by
  have hc := C9_mutex_lazy_idempotent_persistent
  refine ⟨rfl, ?_, ?_, ?_⟩
  · exact (hc.1 "k" c9State rfl).2
  · have h1 := hc.2.2.1 "k" c9State
    rw [h1, (hc.1 "k" c9State rfl).1]
    rfl
  · exact hc.2.2.2 (Mutex "k" c9State).2 [.doClose "k", .doOpen "k"] "k" 0
      (hc.1 "k" c9State rfl).2

/-! ### Remaining `openDir` case lemmas -/

theorem openDir_file (dir : String) (s : ServiceState)
    (hd : lookupKey s.disk dir = some Entry.file) :
    openDir dir s = (.error (.unrecognized dir), s) := by
  simp [openDir, vcsTypeFromDir, hd]

theorem openDir_norecog (dir : String) (s : ServiceState) (b : Bool)
    (hd : lookupKey s.disk dir = some (Entry.dir none b)) :
    openDir dir s = (.error (.unrecognized dir), s) := by
  simp [openDir, vcsTypeFromDir, hd]

theorem openDir_unopenable (dir : String) (s : ServiceState) (t : String)
    (hd : lookupKey s.disk dir = some (Entry.dir (some t) false))
    (hr : lookupKey s.repos dir = none) :
    openDir dir s = (.error (.openFailed dir), s) := by
  simp [openDir, vcsTypeFromDir, statIsDir, vcsOpen, hd, hr]

/-- Per-key effect of `Close`: entries of keys other than the closed clone
directory are untouched, in both maps. -/
theorem Close_lookup_ne (rp : String) (s : ServiceState) (k : String)
    (hne : cloneDirOf s.storageDir rp ≠ k) :
    lookupKey ((Close rp s).getD s).repoUsers k = lookupKey s.repoUsers k ∧
    lookupKey ((Close rp s).getD s).repos k = lookupKey s.repos k := by
  rcases h : lookupKey s.repoUsers (cloneDirOf s.storageDir rp) with _ | c
  · rw [Close_untracked rp s h]
    exact ⟨lookupKey_setKey_ne _ _ _ _ hne, rfl⟩
  · by_cases hc : c = 1
    · subst hc
      rw [Close_last rp s h]
      refine ⟨?_, lookupKey_eraseKey_ne _ _ _ hne⟩
      rw [show ((some { s with
          repoUsers := eraseKey (setKey s.repoUsers (cloneDirOf s.storageDir rp) 0)
            (cloneDirOf s.storageDir rp),
          repos := eraseKey s.repos (cloneDirOf s.storageDir rp) } : Option ServiceState).getD
            s).repoUsers =
        eraseKey (setKey s.repoUsers (cloneDirOf s.storageDir rp) 0)
          (cloneDirOf s.storageDir rp) from rfl]
      rw [lookupKey_eraseKey_ne _ _ _ hne, lookupKey_setKey_ne _ _ _ _ hne]
    · rw [Close_decr rp s c h hc]
      exact ⟨lookupKey_setKey_ne _ _ _ _ hne, rfl⟩

/-! ### Claim C10 -/

/-- Invariant of a key whose refcount has been driven nonpositive by an
unmatched `Close`: the refcount entry is present with value at most -1 and
no handle is cached, or it is present with value at most 0 alongside a
cached handle.  In either case the entry is present, and the code can never
remove it, because removal happens only when a `Close` decrement lands
exactly on 0. -/
def NonposEntry (k : String) (s : ServiceState) : Prop :=
  (∃ c : Int, lookupKey s.repoUsers k = some c ∧ c ≤ -1 ∧ lookupKey s.repos k = none) ∨
  (∃ c : Int, lookupKey s.repoUsers k = some c ∧ c ≤ 0 ∧ (lookupKey s.repos k).isSome)

theorem openDir_nonpos_self (k : String) (s : ServiceState) (h : NonposEntry k s) :
    NonposEntry k (openDir k s).2 := by
  rcases hd : lookupKey s.disk k with _ | e
  · rw [openDir_absent k s hd]; exact h
  · cases e with
    | file => rw [openDir_file k s hd]; exact h
    | dir vt b =>
      cases vt with
      | none => rw [openDir_norecog k s b hd]; exact h
      | some t =>
        rcases h with ⟨c, hc, hle, hr⟩ | ⟨c, hc, hle, hr⟩
        · cases b with
          | false =>
            rw [openDir_unopenable k s t hd hr]
            exact Or.inl ⟨c, hc, hle, hr⟩
          | true =>
            rw [openDir_slow k s t hd hr]
            right
            have hrc : readCount s.repoUsers k = c := by simp [readCount, hc]
            refine ⟨c + 1, ?_, by omega, ?_⟩
            · rw [show ({ s with
                  repoUsers := setKey s.repoUsers k (readCount s.repoUsers k + 1),
                  repos := setKey s.repos k s.nextHandle,
                  nextHandle := s.nextHandle + 1 } : ServiceState).repoUsers =
                setKey s.repoUsers k (readCount s.repoUsers k + 1) from rfl]
              rw [lookupKey_setKey_self, hrc]
            · rw [show ({ s with
                  repoUsers := setKey s.repoUsers k (readCount s.repoUsers k + 1),
                  repos := setKey s.repos k s.nextHandle,
                  nextHandle := s.nextHandle + 1 } : ServiceState).repos =
                setKey s.repos k s.nextHandle from rfl]
              rw [lookupKey_setKey_self]
              rfl
        · obtain ⟨hid, hhid⟩ := Option.isSome_iff_exists.mp hr
          rw [openDir_cached k s t b hd hhid]
          exact Or.inr ⟨c, hc, hle, hr⟩

theorem openDir_nonpos (dir k : String) (s : ServiceState) (h : NonposEntry k s) :
    NonposEntry k (openDir dir s).2 := by
  by_cases hk : dir = k
  · subst hk; exact openDir_nonpos_self dir s h
  · unfold NonposEntry at h ⊢
    rw [openDir_repos_ne dir k s hk, openDir_repoUsers_ne dir k s hk]
    exact h

theorem Close_nonpos (rp : String) (s : ServiceState) (k : String)
    (h : NonposEntry k s) : NonposEntry k ((Close rp s).getD s) := by
  by_cases hk : cloneDirOf s.storageDir rp = k
  · rcases h with ⟨c, hc, hle, hr⟩ | ⟨c, hc, hle, hr⟩
    · have hcd : lookupKey s.repoUsers (cloneDirOf s.storageDir rp) = some c := by
        rw [hk]; exact hc
      have hne : c ≠ 1 := by omega
      rw [Close_decr rp s c hcd hne]
      left
      refine ⟨c - 1, ?_, by omega, hr⟩
      rw [show ((some { s with
          repoUsers := setKey s.repoUsers (cloneDirOf s.storageDir rp) (c - 1) } :
            Option ServiceState).getD s).repoUsers =
        setKey s.repoUsers (cloneDirOf s.storageDir rp) (c - 1) from rfl]
      rw [hk, lookupKey_setKey_self]
    · have hcd : lookupKey s.repoUsers (cloneDirOf s.storageDir rp) = some c := by
        rw [hk]; exact hc
      have hne : c ≠ 1 := by omega
      rw [Close_decr rp s c hcd hne]
      right
      refine ⟨c - 1, ?_, by omega, hr⟩
      rw [show ((some { s with
          repoUsers := setKey s.repoUsers (cloneDirOf s.storageDir rp) (c - 1) } :
            Option ServiceState).getD s).repoUsers =
        setKey s.repoUsers (cloneDirOf s.storageDir rp) (c - 1) from rfl]
      rw [hk, lookupKey_setKey_self]
  · unfold NonposEntry at h ⊢
    rw [(Close_lookup_ne rp s k hk).1, (Close_lookup_ne rp s k hk).2]
    exact h

theorem Clone_nonpos (rp : String) (info : CloneInfo) (execOk : Bool)
    (s : ServiceState) (k : String) (h : NonposEntry k s) :
    NonposEntry k (Clone rp info execOk s).2 := by
  simp only [Clone, CloneDir]
  by_cases hpre : resIsNotExist (openDir rp s).1 = true
  · simp only [hpre, Bool.not_true, Bool.false_eq_true, if_false]
    have h1 : NonposEntry k (openDir rp s).2 := openDir_nonpos rp k s h
    have h2 : NonposEntry k (Mutex (cloneDirOf s.storageDir rp) (openDir rp s).2).2 := by
      unfold NonposEntry at h1 ⊢
      rw [Mutex_repos, Mutex_repoUsers]
      exact h1
    by_cases hpost :
        resIsNotExist (openDir (cloneDirOf s.storageDir rp)
          (Mutex (cloneDirOf s.storageDir rp) (openDir rp s).2).2).1 = true
    · simp only [hpost, Bool.not_true, Bool.false_eq_true, if_false]
      have h3 : NonposEntry k (openDir (cloneDirOf s.storageDir rp)
          (Mutex (cloneDirOf s.storageDir rp) (openDir rp s).2).2).2 :=
        openDir_nonpos _ k _ h2
      rcases hct : cloneToDisk (cloneDirOf s.storageDir rp) info execOk
          (openDir (cloneDirOf s.storageDir rp)
            (Mutex (cloneDirOf s.storageDir rp) (openDir rp s).2).2).2.disk with ⟨oe, d⟩
      cases oe with
      | some e =>
        simp only [hct]
        exact h3
      | none =>
        simp only [hct]
        exact openDir_nonpos _ k _ h3
    · simp only [hpost, Bool.not_false, if_true]
      exact openDir_nonpos _ k _ h2
  · simp only [hpre, Bool.not_false, if_true]
    exact openDir_nonpos rp k s h

theorem stepOp_nonpos (s : ServiceState) (op : Op) (k : String)
    (h : NonposEntry k s) : NonposEntry k (stepOp s op) := by
  cases op with
  | doOpen rp =>
    have : stepOp s (.doOpen rp) = (openDir (cloneDirOf s.storageDir rp) s).2 := rfl
    rw [this]
    exact openDir_nonpos _ k s h
  | doClose rp => exact Close_nonpos rp s k h
  | doClone rp info execOk => exact Clone_nonpos rp info execOk s k h

theorem run_nonpos (ops : List Op) : ∀ (s : ServiceState) (k : String),
    NonposEntry k s → NonposEntry k (run s ops) := by
  induction ops with
  | nil => intro s k h; exact h
  | cons op rest ih =>
    intro s k h
    exact ih (stepOp s op) k (stepOp_nonpos s op k h)

/-- C10: `Config.CloneDir` always returns a nil error, so the panic branch
in `Close` is unreachable: `Close` always returns a state.  A `Close` on an
identity with no tracked refcount stores a refcount entry of -1 (with no
removal), and under every subsequent sequence of public operations that
entry is never removed, because removal requires a decrement landing
exactly on 0, which the fast path of `open` (which skips the increment)
makes unreachable from a nonpositive count. -/
theorem C10_unmatched_close_permanent_entry (rp : String) (s : ServiceState)
    (h : lookupKey s.repoUsers (cloneDirOf s.storageDir rp) = none) :
    (∀ sd p : String, CloneDir sd p = .ok (cloneDirOf sd p)) ∧
    (∀ (p : String) (t : ServiceState), (Close p t).isSome = true) ∧
    Close rp s =
      some { s with repoUsers := setKey s.repoUsers (cloneDirOf s.storageDir rp) (-1) } ∧
    lookupKey ((Close rp s).getD s).repoUsers (cloneDirOf s.storageDir rp) = some (-1) ∧
    (∀ ops : List Op,
      (lookupKey (run ((Close rp s).getD s) ops).repoUsers
        (cloneDirOf s.storageDir rp)).isSome = true) := by
  have hclose := Close_untracked rp s h
  have hafter : ((Close rp s).getD s).repoUsers =
      setKey s.repoUsers (cloneDirOf s.storageDir rp) (-1) := by
    rw [hclose]
    rfl
  have hstart : NonposEntry (cloneDirOf s.storageDir rp) ((Close rp s).getD s) := by
    rcases hr : lookupKey ((Close rp s).getD s).repos (cloneDirOf s.storageDir rp)
      with _ | hid
    · exact Or.inl ⟨-1, by rw [hafter]; exact lookupKey_setKey_self _ _ _, le_refl _, hr⟩
    · exact Or.inr ⟨-1, by rw [hafter]; exact lookupKey_setKey_self _ _ _, by omega,
        by rw [hr]; rfl⟩
  refine ⟨fun sd p => rfl, ?_, hclose, ?_, ?_⟩
  · intro p t
    rcases hu : lookupKey t.repoUsers (cloneDirOf t.storageDir p) with _ | c
    · rw [Close_untracked p t hu]; rfl
    · by_cases hc : c = 1
      · subst hc; rw [Close_last p t hu]; rfl
      · rw [Close_decr p t c hu hc]; rfl
  · rw [hafter]; exact lookupKey_setKey_self _ _ _
  · intro ops
    have := run_nonpos ops ((Close rp s).getD s) (cloneDirOf s.storageDir rp) hstart
    rcases this with ⟨c, hc, _, _⟩ | ⟨c, hc, _, _⟩ <;> rw [hc] <;> rfl

theorem C10_unmatched_close_permanent_entry_witness :
    lookupKey c9State.repoUsers (cloneDirOf c9State.storageDir "k") = none ∧
    Close "k" c9State =
      some { c9State with
              repoUsers := setKey c9State.repoUsers (cloneDirOf c9State.storageDir "k") (-1) } ∧
    (lookupKey (run ((Close "k" c9State).getD c9State)
        [.doOpen "k", .doClose "k", .doClone "k" ⟨"git", "u"⟩ true]).repoUsers
      (cloneDirOf c9State.storageDir "k")).isSome = true :=
  ⟨rfl,
   (C10_unmatched_close_permanent_entry "k" c9State rfl).2.2.1,
   (C10_unmatched_close_permanent_entry "k" c9State rfl).2.2.2.2
     [.doOpen "k", .doClose "k", .doClone "k" ⟨"git", "u"⟩ true]⟩

/-! ### Claim C5 -/

/-- The registry invariant claimed by the spec, strengthened to be
inductive: a key is in `repos` iff its refcount entry is present and
positive, and every present refcount entry is positive. -/
def RegInv (s : ServiceState) : Prop :=
  ∀ k : String,
    ((lookupKey s.repos k).isSome = true ↔
      ∃ c : Int, lookupKey s.repoUsers k = some c ∧ 0 < c) ∧
    (∀ c : Int, lookupKey s.repoUsers k = some c → 0 < c)

theorem openDir_RegInv (dir : String) (s : ServiceState) (h : RegInv s) :
    RegInv (openDir dir s).2 := by
  rcases hd : lookupKey s.disk dir with _ | e
  · rw [openDir_absent dir s hd]; exact h
  · cases e with
    | file => rw [openDir_file dir s hd]; exact h
    | dir vt b =>
      cases vt with
      | none => rw [openDir_norecog dir s b hd]; exact h
      | some t =>
        rcases hr : lookupKey s.repos dir with _ | hid
        · cases b with
          | false => rw [openDir_unopenable dir s t hd hr]; exact h
          | true =>
            rw [openDir_slow dir s t hd hr]
            have hcount : lookupKey s.repoUsers dir = none := by
              rcases hc : lookupKey s.repoUsers dir with _ | c
              · rfl
              · have hpos := (h dir).2 c hc
                have : (lookupKey s.repos dir).isSome = true :=
                  (h dir).1.mpr ⟨c, hc, hpos⟩
                rw [hr] at this
                exact absurd this (by simp)
            have hrc : readCount s.repoUsers dir = 0 := by
              simp [readCount, hcount]
            intro k
            by_cases hk : dir = k
            · subst hk
              constructor
              · constructor
                · intro _
                  refine ⟨1, ?_, by omega⟩
                  rw [show ({ s with
                      repoUsers := setKey s.repoUsers dir (readCount s.repoUsers dir + 1),
                      repos := setKey s.repos dir s.nextHandle,
                      nextHandle := s.nextHandle + 1 } : ServiceState).repoUsers =
                    setKey s.repoUsers dir (readCount s.repoUsers dir + 1) from rfl,
                    lookupKey_setKey_self, hrc]
                  norm_num
                · intro _
                  rw [show ({ s with
                      repoUsers := setKey s.repoUsers dir (readCount s.repoUsers dir + 1),
                      repos := setKey s.repos dir s.nextHandle,
                      nextHandle := s.nextHandle + 1 } : ServiceState).repos =
                    setKey s.repos dir s.nextHandle from rfl,
                    lookupKey_setKey_self]
                  rfl
              · intro c hc
                rw [show ({ s with
                    repoUsers := setKey s.repoUsers dir (readCount s.repoUsers dir + 1),
                    repos := setKey s.repos dir s.nextHandle,
                    nextHandle := s.nextHandle + 1 } : ServiceState).repoUsers =
                  setKey s.repoUsers dir (readCount s.repoUsers dir + 1) from rfl,
                  lookupKey_setKey_self, hrc] at hc
                cases hc
                omega
            · have e1 : lookupKey ({ s with
                  repoUsers := setKey s.repoUsers dir (readCount s.repoUsers dir + 1),
                  repos := setKey s.repos dir s.nextHandle,
                  nextHandle := s.nextHandle + 1 } : ServiceState).repoUsers k =
                lookupKey s.repoUsers k := lookupKey_setKey_ne _ _ _ _ hk
              have e2 : lookupKey ({ s with
                  repoUsers := setKey s.repoUsers dir (readCount s.repoUsers dir + 1),
                  repos := setKey s.repos dir s.nextHandle,
                  nextHandle := s.nextHandle + 1 } : ServiceState).repos k =
                lookupKey s.repos k := lookupKey_setKey_ne _ _ _ _ hk
              rw [e1, e2]
              exact h k
        · rw [openDir_cached dir s t b hd hr]
          exact h

theorem Close_RegInv (rp : String) (s : ServiceState) (h : RegInv s)
    (hg : (lookupKey s.repoUsers (cloneDirOf s.storageDir rp)).isSome = true) :
    RegInv ((Close rp s).getD s) := by
  obtain ⟨c, hc⟩ := Option.isSome_iff_exists.mp hg
  have hpos := (h (cloneDirOf s.storageDir rp)).2 c hc
  by_cases h1 : c = 1
  · subst h1
    rw [Close_last rp s hc]
    intro k
    by_cases hk : cloneDirOf s.storageDir rp = k
    · subst hk
      have eu : lookupKey ((some { s with
          repoUsers := eraseKey (setKey s.repoUsers (cloneDirOf s.storageDir rp) 0)
            (cloneDirOf s.storageDir rp),
          repos := eraseKey s.repos (cloneDirOf s.storageDir rp) } :
            Option ServiceState).getD s).repoUsers (cloneDirOf s.storageDir rp) = none := by
        rw [show ((some { s with
            repoUsers := eraseKey (setKey s.repoUsers (cloneDirOf s.storageDir rp) 0)
              (cloneDirOf s.storageDir rp),
            repos := eraseKey s.repos (cloneDirOf s.storageDir rp) } :
              Option ServiceState).getD s).repoUsers =
          eraseKey (setKey s.repoUsers (cloneDirOf s.storageDir rp) 0)
            (cloneDirOf s.storageDir rp) from rfl]
        exact lookupKey_eraseKey_self _ _
      have er : lookupKey ((some { s with
          repoUsers := eraseKey (setKey s.repoUsers (cloneDirOf s.storageDir rp) 0)
            (cloneDirOf s.storageDir rp),
          repos := eraseKey s.repos (cloneDirOf s.storageDir rp) } :
            Option ServiceState).getD s).repos (cloneDirOf s.storageDir rp) = none := by
        rw [show ((some { s with
            repoUsers := eraseKey (setKey s.repoUsers (cloneDirOf s.storageDir rp) 0)
              (cloneDirOf s.storageDir rp),
            repos := eraseKey s.repos (cloneDirOf s.storageDir rp) } :
              Option ServiceState).getD s).repos =
          eraseKey s.repos (cloneDirOf s.storageDir rp) from rfl]
        exact lookupKey_eraseKey_self _ _
      rw [eu, er]
      refine ⟨by simp, ?_⟩
      intro c2 hc2
      cases hc2
    · have eu : lookupKey ((some { s with
          repoUsers := eraseKey (setKey s.repoUsers (cloneDirOf s.storageDir rp) 0)
            (cloneDirOf s.storageDir rp),
          repos := eraseKey s.repos (cloneDirOf s.storageDir rp) } :
            Option ServiceState).getD s).repoUsers k = lookupKey s.repoUsers k := by
        rw [show ((some { s with
            repoUsers := eraseKey (setKey s.repoUsers (cloneDirOf s.storageDir rp) 0)
              (cloneDirOf s.storageDir rp),
            repos := eraseKey s.repos (cloneDirOf s.storageDir rp) } :
              Option ServiceState).getD s).repoUsers =
          eraseKey (setKey s.repoUsers (cloneDirOf s.storageDir rp) 0)
            (cloneDirOf s.storageDir rp) from rfl]
        rw [lookupKey_eraseKey_ne _ _ _ hk, lookupKey_setKey_ne _ _ _ _ hk]
      have er : lookupKey ((some { s with
          repoUsers := eraseKey (setKey s.repoUsers (cloneDirOf s.storageDir rp) 0)
            (cloneDirOf s.storageDir rp),
          repos := eraseKey s.repos (cloneDirOf s.storageDir rp) } :
            Option ServiceState).getD s).repos k = lookupKey s.repos k := by
        rw [show ((some { s with
            repoUsers := eraseKey (setKey s.repoUsers (cloneDirOf s.storageDir rp) 0)
              (cloneDirOf s.storageDir rp),
            repos := eraseKey s.repos (cloneDirOf s.storageDir rp) } :
              Option ServiceState).getD s).repos =
          eraseKey s.repos (cloneDirOf s.storageDir rp) from rfl]
        exact lookupKey_eraseKey_ne _ _ _ hk
      rw [eu, er]
      exact h k
  · rw [Close_decr rp s c hc h1]
    intro k
    by_cases hk : cloneDirOf s.storageDir rp = k
    · subst hk
      have eu : lookupKey ((some { s with
          repoUsers := setKey s.repoUsers (cloneDirOf s.storageDir rp) (c - 1) } :
            Option ServiceState).getD s).repoUsers (cloneDirOf s.storageDir rp) =
          some (c - 1) := by
        rw [show ((some { s with
            repoUsers := setKey s.repoUsers (cloneDirOf s.storageDir rp) (c - 1) } :
              Option ServiceState).getD s).repoUsers =
          setKey s.repoUsers (cloneDirOf s.storageDir rp) (c - 1) from rfl]
        exact lookupKey_setKey_self _ _ _
      have hcgt : 1 < c := by omega
      constructor
      · rw [show ((some { s with
            repoUsers := setKey s.repoUsers (cloneDirOf s.storageDir rp) (c - 1) } :
              Option ServiceState).getD s).repos = s.repos from rfl]
        rw [eu]
        constructor
        · intro _
          exact ⟨c - 1, rfl, by omega⟩
        · intro _
          exact (h (cloneDirOf s.storageDir rp)).1.mpr ⟨c, hc, hpos⟩
      · intro c2 hc2
        rw [eu] at hc2
        cases hc2
        omega
    · have eu : lookupKey ((some { s with
          repoUsers := setKey s.repoUsers (cloneDirOf s.storageDir rp) (c - 1) } :
            Option ServiceState).getD s).repoUsers k = lookupKey s.repoUsers k := by
        rw [show ((some { s with
            repoUsers := setKey s.repoUsers (cloneDirOf s.storageDir rp) (c - 1) } :
              Option ServiceState).getD s).repoUsers =
          setKey s.repoUsers (cloneDirOf s.storageDir rp) (c - 1) from rfl]
        exact lookupKey_setKey_ne _ _ _ _ hk
      rw [show ((some { s with
          repoUsers := setKey s.repoUsers (cloneDirOf s.storageDir rp) (c - 1) } :
            Option ServiceState).getD s).repos = s.repos from rfl]
      rw [eu]
      exact h k

theorem Clone_RegInv (rp : String) (info : CloneInfo) (execOk : Bool)
    (s : ServiceState) (h : RegInv s) : RegInv (Clone rp info execOk s).2 := by
  simp only [Clone, CloneDir]
  by_cases hpre : resIsNotExist (openDir rp s).1 = true
  · simp only [hpre, Bool.not_true, Bool.false_eq_true, if_false]
    have h1 : RegInv (openDir rp s).2 := openDir_RegInv rp s h
    have h2 : RegInv (Mutex (cloneDirOf s.storageDir rp) (openDir rp s).2).2 := by
      intro k
      have := h1 k
      rwa [show (Mutex (cloneDirOf s.storageDir rp) (openDir rp s).2).2.repos =
          (openDir rp s).2.repos from Mutex_repos _ _,
        show (Mutex (cloneDirOf s.storageDir rp) (openDir rp s).2).2.repoUsers =
          (openDir rp s).2.repoUsers from Mutex_repoUsers _ _]
    by_cases hpost :
        resIsNotExist (openDir (cloneDirOf s.storageDir rp)
          (Mutex (cloneDirOf s.storageDir rp) (openDir rp s).2).2).1 = true
    · simp only [hpost, Bool.not_true, Bool.false_eq_true, if_false]
      have h3 : RegInv (openDir (cloneDirOf s.storageDir rp)
          (Mutex (cloneDirOf s.storageDir rp) (openDir rp s).2).2).2 :=
        openDir_RegInv _ _ h2
      rcases hct : cloneToDisk (cloneDirOf s.storageDir rp) info execOk
          (openDir (cloneDirOf s.storageDir rp)
            (Mutex (cloneDirOf s.storageDir rp) (openDir rp s).2).2).2.disk with ⟨oe, d⟩
      cases oe with
      | some e => simp only [hct]; exact h3
      | none => simp only [hct]; exact openDir_RegInv _ _ h3
    · simp only [hpost, Bool.not_false, if_true]
      exact openDir_RegInv _ _ h2
  · simp only [hpre, Bool.not_false, if_true]
    exact openDir_RegInv rp s h

/-- The guard under which the spec's Close contract is respected: a `Close`
is issued only for a key whose refcount entry is present. -/
def guardOk (s : ServiceState) : Op → Bool
  | .doClose rp => (lookupKey s.repoUsers (cloneDirOf s.storageDir rp)).isSome
  | _ => true

/-- A trace is guarded when every `Close` in it respects the guard in the
state where it executes. -/
def guarded : ServiceState → List Op → Bool
  | _, [] => true
  | s, op :: rest => guardOk s op && guarded (stepOp s op) rest

theorem stepOp_RegInv (s : ServiceState) (op : Op) (h : RegInv s)
    (hg : guardOk s op = true) : RegInv (stepOp s op) := by
  cases op with
  | doOpen rp =>
    have e : stepOp s (.doOpen rp) = (openDir (cloneDirOf s.storageDir rp) s).2 := rfl
    rw [e]
    exact openDir_RegInv _ s h
  | doClose rp => exact Close_RegInv rp s h hg
  | doClone rp info execOk => exact Clone_RegInv rp info execOk s h

/-- C5 counterexample state: the reachable state produced by an unmatched
`Close` followed by an `Open` of an available repository. -/
def c5Start : ServiceState :=
  { storageDir := "", repoMu := [], repos := [], repoUsers := [],
    nextHandle := 0, nextLock := 0, disk := [("r", Entry.dir (some "git") true)] }

def c5After : ServiceState := run c5Start [.doClose "r", .doOpen "r"]

/-- C5 counterexample: the state reached from an empty registry by the
public operations `Close "r"; Open "r"` (the clone directory of "r" being
present and openable on disk) holds a cached handle for "r" while its
refcount entry is 0, so the claimed "handle present iff refcount present
and positive" is false in a reachable state, and `Open` does not preserve
it: the unmatched `Close` stores -1, and the following `Open` increments it
to 0 while installing a handle. -/
theorem C5_invariant_violated_reachable :
    ¬ (((lookupKey c5After.repos "r").isSome = true) ↔
        (∃ c : Int, lookupKey c5After.repoUsers "r" = some c ∧ 0 < c)) := by
  intro hiff
  obtain ⟨c, hc, hpos⟩ := hiff.mp (by decide)
  have h0 : lookupKey c5After.repoUsers "r" = some 0 := by decide
  rw [h0] at hc
  cases hc
  exact absurd hpos (by decide)

/-- C5 as amended: from any state satisfying the invariant (in particular
the initial empty registry), every guarded trace — one whose `Close`
operations each target a key with a refcount entry present, i.e. traces
without the unmatched Closes that C10 describes — preserves the invariant:
a key is in `handles` iff its refcount entry is present and positive.
Moreover, when a refcount of 1 is decremented to 0 by `Close`, both the
handle entry and the refcount entry are removed. -/
theorem C5_guarded_traces_preserve_invariant (s : ServiceState) (ops : List Op)
    (hinv : RegInv s) (hg : guarded s ops = true) :
    RegInv (run s ops) ∧
    (∀ (rp : String) (t : ServiceState),
      lookupKey t.repoUsers (cloneDirOf t.storageDir rp) = some 1 →
      lookupKey ((Close rp t).getD t).repoUsers (cloneDirOf t.storageDir rp) = none ∧
      lookupKey ((Close rp t).getD t).repos (cloneDirOf t.storageDir rp) = none) := by
  constructor
  · induction ops generalizing s with
    | nil => exact hinv
    | cons op rest ih =>
      rw [guarded, Bool.and_eq_true] at hg
      exact ih (stepOp s op) (stepOp_RegInv s op hinv hg.1) hg.2
  · intro rp t hone
    rw [Close_last rp t hone]
    constructor
    · rw [show ((some { t with
          repoUsers := eraseKey (setKey t.repoUsers (cloneDirOf t.storageDir rp) 0)
            (cloneDirOf t.storageDir rp),
          repos := eraseKey t.repos (cloneDirOf t.storageDir rp) } :
            Option ServiceState).getD t).repoUsers =
        eraseKey (setKey t.repoUsers (cloneDirOf t.storageDir rp) 0)
          (cloneDirOf t.storageDir rp) from rfl]
      exact lookupKey_eraseKey_self _ _
    · rw [show ((some { t with
          repoUsers := eraseKey (setKey t.repoUsers (cloneDirOf t.storageDir rp) 0)
            (cloneDirOf t.storageDir rp),
          repos := eraseKey t.repos (cloneDirOf t.storageDir rp) } :
            Option ServiceState).getD t).repos =
        eraseKey t.repos (cloneDirOf t.storageDir rp) from rfl]
      exact lookupKey_eraseKey_self _ _

theorem C5_guarded_traces_preserve_invariant_witness :
    RegInv c5Start ∧
    guarded c5Start [.doOpen "r", .doClose "r"] = true ∧
    RegInv (run c5Start [.doOpen "r", .doClose "r"]) := by
  have hinv : RegInv c5Start := by
    intro k
    constructor
    · constructor
      · intro hs
        exact absurd hs (by simp [c5Start, lookupKey])
      · rintro ⟨c, hc, _⟩
        exact absurd hc (by simp [c5Start, lookupKey])
    · intro c hc
      exact absurd hc (by simp [c5Start, lookupKey])
  exact ⟨hinv, by decide,
    (C5_guarded_traces_preserve_invariant c5Start [.doOpen "r", .doClose "r"]
      hinv (by decide)).1⟩

/-! ### Claim C2: an interleaving model of concurrent `Clone` calls

`Clone` is decomposed at its blocking points into atomic steps, one per
thread: the pre-lock existence check (`s.open(repoPath)`, as in the
source), the `mu.Lock()` acquisition of the per-directory lock, the
post-lock re-check (`s.open(cloneDir)`), the clone work performed while
holding the lock (lines 182-215, whose intermediate disk states only touch
the parent, temporary and target directories and are only observable
through the lock or through paths no other thread reads), and the final
`s.open(cloneDir)`.  The structural mutex makes each map operation atomic,
so the reused sequential `openDir`, `Mutex` and `cloneToDisk` functions are
applied atomically per step.  A scheduler is an arbitrary list of thread
ids; a thread whose id is out of range, or which is blocked on the lock, or
which is done, makes no progress when scheduled. -/

inductive TPC where
  | preCheck
  | waitLock
  | postCheck
  | doClone
  | finalOpen
  | done
deriving DecidableEq, Repr

structure ThreadSt where
  pc : TPC
  res : Option (Except VcsError Nat)
  ranExec : Bool
deriving Repr

structure Sys where
  n : Nat
  svc : ServiceState
  lockHeld : Option Nat
  threads : Nat → ThreadSt

def setThread (sys : Sys) (tid : Nat) (th : ThreadSt) : Sys :=
  { sys with threads := fun j => if j = tid then th else sys.threads j }

/-- One atomic step of thread `tid` running `Clone repoPath info` (with
Clone Executor outcome `execOk`). -/
def cloneStep (rp : String) (info : CloneInfo) (execOk : Bool)
    (sys : Sys) (tid : Nat) : Sys :=
  if tid < sys.n then
    let th := sys.threads tid
    match th.pc with
    | .preCheck =>
      -- the pre-lock check opens repoPath, as the source does
      let pre := openDir rp sys.svc
      if !(resIsNotExist pre.1) then
        setThread { sys with svc := pre.2 } tid { th with pc := .done, res := some pre.1 }
      else
        setThread { sys with svc := pre.2 } tid { th with pc := .waitLock }
    | .waitLock =>
      match sys.lockHeld with
      | some _ => sys
      | none =>
        let locked := Mutex (cloneDirOf sys.svc.storageDir rp) sys.svc
        setThread { sys with svc := locked.2, lockHeld := some tid } tid
          { th with pc := .postCheck }
    | .postCheck =>
      let post := openDir (cloneDirOf sys.svc.storageDir rp) sys.svc
      if !(resIsNotExist post.1) then
        setThread { sys with svc := post.2, lockHeld := none } tid
          { th with pc := .done, res := some post.1 }
      else
        setThread { sys with svc := post.2 } tid { th with pc := .doClone }
    | .doClone =>
      match cloneToDisk (cloneDirOf sys.svc.storageDir rp) info execOk sys.svc.disk with
      | (some e, d) =>
        setThread { sys with svc := { sys.svc with disk := d }, lockHeld := none } tid
          { th with pc := .done, res := some (.error e), ranExec := true }
      | (none, d) =>
        setThread { sys with svc := { sys.svc with disk := d } } tid
          { th with pc := .finalOpen, ranExec := true }
    | .finalOpen =>
      let fin := openDir (cloneDirOf sys.svc.storageDir rp) sys.svc
      setThread { sys with svc := fin.2, lockHeld := none } tid
        { th with pc := .done, res := some fin.1 }
    | .done => sys
  else sys

def runSched (rp : String) (info : CloneInfo) (execOk : Bool)
    (sys : Sys) (sched : List Nat) : Sys :=
  sched.foldl (cloneStep rp info execOk) sys

/-- `n` threads about to call `Clone` concurrently against service state
`svc`. -/
def initSys (n : Nat) (svc : ServiceState) : Sys :=
  { n := n, svc := svc, lockHeld := none,
    threads := fun _ => { pc := .preCheck, res := none, ranExec := false } }

/-- The disk entry a successful clone installs at the target. -/
def goodEntry (info : CloneInfo) : Entry := Entry.dir (some info.vcs) true

theorem setThread_n (sys : Sys) (tid : Nat) (th : ThreadSt) :
    (setThread sys tid th).n = sys.n := rfl

theorem setThread_at (sys : Sys) (tid : Nat) (th : ThreadSt) :
    (setThread sys tid th).threads tid = th := by
  simp [setThread]

theorem setThread_ne (sys : Sys) (tid : Nat) (th : ThreadSt) (j : Nat) (h : j ≠ tid) :
    (setThread sys tid th).threads j = sys.threads j := by
  simp [setThread, h]

theorem cloneToDisk_success_ok (cd : String) (info : CloneInfo) (d : Disk) :
    (cloneToDisk cd info true d).1 = none := by
  simp [cloneToDisk]

theorem cloneToDisk_success_target (cd : String) (info : CloneInfo) (d : Disk)
    (htc : tempDirName (filepathDir cd) (filepathBase cd) ≠ cd) :
    lookupKey (cloneToDisk cd info true d).2 cd = some (goodEntry info) := by
  simp only [cloneToDisk, if_true]
  rw [lookupKey_eraseKey_ne _ _ _ htc, lookupKey_setKey_self]
  rfl

theorem cloneToDisk_success_frame (cd : String) (info : CloneInfo) (d : Disk)
    (x : String)
    (hx1 : x ≠ cd)
    (hx2 : x ≠ tempDirName (filepathDir cd) (filepathBase cd))
    (hx3 : x ≠ filepathDir cd) :
    lookupKey (cloneToDisk cd info true d).2 x = lookupKey d x := by
  simp only [cloneToDisk, if_true]
  rw [lookupKey_eraseKey_ne _ _ _ (fun h => hx2 h.symm),
    lookupKey_setKey_ne _ _ _ _ (fun h => hx1 h.symm),
    lookupKey_eraseKey_ne _ _ _ (fun h => hx2 h.symm),
    lookupKey_setKey_ne _ _ _ _ (fun h => hx2 h.symm),
    lookupKey_setKey_ne _ _ _ _ (fun h => hx2 h.symm),
    lookupKey_mkdirAll_ne _ _ _ (fun h => hx3 h.symm)]

/-- On a present, recognized, openable directory, `openDir` returns some
handle and changes neither the disk, nor the storage dir, nor the lock
map. -/
theorem openDir_good (dir : String) (s : ServiceState) (t : String)
    (hd : lookupKey s.disk dir = some (Entry.dir (some t) true)) :
    ∃ (hid : Nat) (s2 : ServiceState), openDir dir s = (.ok hid, s2) ∧
      s2.disk = s.disk ∧ s2.storageDir = s.storageDir := by
  rcases hr : lookupKey s.repos dir with _ | hid
  · exact ⟨s.nextHandle, _, openDir_slow dir s t hd hr, rfl, rfl⟩
  · exact ⟨hid, s, openDir_cached dir s t true hd hr, rfl, rfl⟩

theorem cloneStep_oob (rp : String) (info : CloneInfo) (execOk : Bool)
    (sys : Sys) (tid : Nat) (h : ¬ tid < sys.n) :
    cloneStep rp info execOk sys tid = sys := by
  simp [cloneStep, h]

theorem cloneStep_done (rp : String) (info : CloneInfo) (execOk : Bool)
    (sys : Sys) (tid : Nat) (htid : tid < sys.n)
    (hpc : (sys.threads tid).pc = .done) :
    cloneStep rp info execOk sys tid = sys := by
  simp [cloneStep, htid, hpc]

theorem cloneStep_precheck (rp : String) (info : CloneInfo) (execOk : Bool)
    (sys : Sys) (tid : Nat) (htid : tid < sys.n)
    (hpc : (sys.threads tid).pc = .preCheck)
    (hrp : lookupKey sys.svc.disk rp = none) :
    cloneStep rp info execOk sys tid =
      setThread sys tid { sys.threads tid with pc := .waitLock } := by
  have hopen : openDir rp sys.svc = (.error (.notExist rp), sys.svc) :=
    openDir_absent _ _ hrp
  simp [cloneStep, htid, hpc, hopen, resIsNotExist, VcsError.isNotExist]

theorem cloneStep_waitlock_blocked (rp : String) (info : CloneInfo) (execOk : Bool)
    (sys : Sys) (tid j : Nat) (htid : tid < sys.n)
    (hpc : (sys.threads tid).pc = .waitLock) (hheld : sys.lockHeld = some j) :
    cloneStep rp info execOk sys tid = sys := by
  simp [cloneStep, htid, hpc, hheld]

theorem cloneStep_waitlock_acquire (rp : String) (info : CloneInfo) (execOk : Bool)
    (sys : Sys) (tid : Nat) (htid : tid < sys.n)
    (hpc : (sys.threads tid).pc = .waitLock) (hfree : sys.lockHeld = none) :
    cloneStep rp info execOk sys tid =
      setThread { sys with svc := (Mutex (cloneDirOf sys.svc.storageDir rp) sys.svc).2,
                           lockHeld := some tid } tid
        { sys.threads tid with pc := .postCheck } := by
  simp [cloneStep, htid, hpc, hfree]

theorem cloneStep_postcheck_miss (rp : String) (info : CloneInfo) (execOk : Bool)
    (sys : Sys) (tid : Nat) (htid : tid < sys.n)
    (hpc : (sys.threads tid).pc = .postCheck)
    (hmiss : lookupKey sys.svc.disk (cloneDirOf sys.svc.storageDir rp) = none) :
    cloneStep rp info execOk sys tid =
      setThread sys tid { sys.threads tid with pc := .doClone } := by
  have hopen := openDir_absent (cloneDirOf sys.svc.storageDir rp) sys.svc hmiss
  simp [cloneStep, htid, hpc, hopen, resIsNotExist, VcsError.isNotExist]

theorem cloneStep_postcheck_hit (rp : String) (info : CloneInfo) (execOk : Bool)
    (sys : Sys) (tid : Nat) (hid : Nat) (s2 : ServiceState) (htid : tid < sys.n)
    (hpc : (sys.threads tid).pc = .postCheck)
    (hopen : openDir (cloneDirOf sys.svc.storageDir rp) sys.svc = (.ok hid, s2)) :
    cloneStep rp info execOk sys tid =
      setThread { sys with svc := s2, lockHeld := none } tid
        { sys.threads tid with pc := .done, res := some (.ok hid) } := by
  simp [cloneStep, htid, hpc, hopen, resIsNotExist]

theorem cloneStep_doclone (rp : String) (info : CloneInfo)
    (sys : Sys) (tid : Nat) (htid : tid < sys.n)
    (hpc : (sys.threads tid).pc = .doClone) :
    cloneStep rp info true sys tid =
      setThread { sys with svc := { sys.svc with disk :=
          (cloneToDisk (cloneDirOf sys.svc.storageDir rp) info true sys.svc.disk).2 } } tid
        { sys.threads tid with pc := .finalOpen, ranExec := true } := by
  have h1 : (cloneToDisk (cloneDirOf sys.svc.storageDir rp) info true sys.svc.disk).1 =
      none := cloneToDisk_success_ok _ _ _
  rcases hct : cloneToDisk (cloneDirOf sys.svc.storageDir rp) info true sys.svc.disk
    with ⟨oe, d⟩
  rw [hct] at h1
  simp only at h1
  subst h1
  simp [cloneStep, htid, hpc, hct]

theorem cloneStep_finalopen (rp : String) (info : CloneInfo) (execOk : Bool)
    (sys : Sys) (tid : Nat) (hid : Nat) (s2 : ServiceState) (htid : tid < sys.n)
    (hpc : (sys.threads tid).pc = .finalOpen)
    (hopen : openDir (cloneDirOf sys.svc.storageDir rp) sys.svc = (.ok hid, s2)) :
    cloneStep rp info execOk sys tid =
      setThread { sys with svc := s2, lockHeld := none } tid
        { sys.threads tid with pc := .done, res := some (.ok hid) } := by
  simp [cloneStep, htid, hpc, hopen]

/-- A thread at one of these program points holds the per-directory lock. -/
def holding (p : TPC) : Prop :=
  p = .postCheck ∨ p = .doClone ∨ p = .finalOpen

/-- Inductive invariant of `n` concurrent `Clone` calls for repository
path `rp` against storage dir `sd`, with a succeeding Clone Executor,
starting from a state where neither `rp` nor the clone directory exists on
disk. -/
structure C2Inv (sd rp : String) (info : CloneInfo) (nn : Nat) (sys : Sys) : Prop where
  n_eq : sys.n = nn
  storage : sys.svc.storageDir = sd
  disk_rp : lookupKey sys.svc.disk rp = none
  disk_cd : lookupKey sys.svc.disk (cloneDirOf sd rp) = none ∨
      lookupKey sys.svc.disk (cloneDirOf sd rp) = some (goodEntry info)
  lock_some : ∀ i, sys.lockHeld = some i → i < nn ∧ holding (sys.threads i).pc
  hold_lock : ∀ i, i < nn → holding (sys.threads i).pc → sys.lockHeld = some i
  doclone_pre : ∀ i, i < nn → (sys.threads i).pc = .doClone →
      lookupKey sys.svc.disk (cloneDirOf sd rp) = none
  final_post : ∀ i, i < nn → (sys.threads i).pc = .finalOpen →
      lookupKey sys.svc.disk (cloneDirOf sd rp) = some (goodEntry info)
  done_ok : ∀ i, i < nn → (sys.threads i).pc = .done →
      ∃ hid, (sys.threads i).res = some (.ok hid)
  done_disk : ∀ i, i < nn → (sys.threads i).pc = .done →
      lookupKey sys.svc.disk (cloneDirOf sd rp) = some (goodEntry info)
  exec_pre : lookupKey sys.svc.disk (cloneDirOf sd rp) = none →
      ∀ i, i < nn → (sys.threads i).ranExec = false
  exec_post : lookupKey sys.svc.disk (cloneDirOf sd rp) = some (goodEntry info) →
      ∃ i, i < nn ∧ (sys.threads i).ranExec = true
  exec_uniq : ∀ i j, i < nn → j < nn → (sys.threads i).ranExec = true →
      (sys.threads j).ranExec = true → i = j

theorem c2Inv_init (sd rp : String) (info : CloneInfo) (n : Nat) (svc : ServiceState)
    (hsd : svc.storageDir = sd)
    (hd_rp : lookupKey svc.disk rp = none)
    (hd_cd : lookupKey svc.disk (cloneDirOf sd rp) = none) :
    C2Inv sd rp info n (initSys n svc) := by
  refine ⟨rfl, hsd, hd_rp, Or.inl hd_cd, ?_, ?_, ?_, ?_, ?_, ?_, ?_, ?_, ?_⟩
  · intro i hi
    cases hi
  · intro i _ hh
    rcases hh with h | h | h <;> exact absurd h (by simp [initSys])
  · intro i _ h
    exact absurd h (by simp [initSys])
  · intro i _ h
    exact absurd h (by simp [initSys])
  · intro i _ h
    exact absurd h (by simp [initSys])
  · intro i _ h
    exact absurd h (by simp [initSys])
  · intro _ i _
    rfl
  · intro h
    rw [show (initSys n svc).svc.disk = svc.disk from rfl, hd_cd] at h
    cases h
  · intro i j _ _ hi _
    exact absurd hi (by simp [initSys])

theorem setThread_eq (sys : Sys) (tid : Nat) (th : ThreadSt) (j : Nat) :
    (setThread sys tid th).threads j = if j = tid then th else sys.threads j := by
  by_cases h : j = tid <;> simp [setThread, h]

theorem c2Inv_step_precheck (sd rp : String) (info : CloneInfo) (nn : Nat)
    (sys : Sys) (tid : Nat) (htid : tid < sys.n)
    (hpc : (sys.threads tid).pc = .preCheck)
    (hinv : C2Inv sd rp info nn sys) :
    C2Inv sd rp info nn (cloneStep rp info true sys tid) := by
  have htid' : tid < nn := hinv.n_eq ▸ htid
  rw [cloneStep_precheck rp info true sys tid htid hpc hinv.disk_rp]
  refine ⟨hinv.n_eq, hinv.storage, hinv.disk_rp, hinv.disk_cd, ?_, ?_, ?_, ?_, ?_, ?_,
    ?_, ?_, ?_⟩
  · intro i hl
    obtain ⟨hi, hh⟩ := hinv.lock_some i hl
    refine ⟨hi, ?_⟩
    rw [setThread_eq]
    by_cases h : i = tid
    · subst h
      rw [hpc] at hh
      rcases hh with h | h | h <;> cases h
    · simpa [h] using hh
  · intro i hi hh
    rw [setThread_eq] at hh
    by_cases h : i = tid
    · subst h
      simp only [if_pos rfl] at hh
      rcases hh with h | h | h <;> cases h
    · rw [if_neg h] at hh
      exact hinv.hold_lock i hi hh
  · intro i hi h
    rw [setThread_eq] at h
    by_cases hit : i = tid
    · subst hit
      simp only [if_pos rfl] at h
      cases h
    · rw [if_neg hit] at h
      exact hinv.doclone_pre i hi h
  · intro i hi h
    rw [setThread_eq] at h
    by_cases hit : i = tid
    · subst hit
      simp only [if_pos rfl] at h
      cases h
    · rw [if_neg hit] at h
      exact hinv.final_post i hi h
  · intro i hi h
    rw [setThread_eq] at h ⊢
    by_cases hit : i = tid
    · subst hit
      simp only [if_pos rfl] at h
      cases h
    · rw [if_neg hit] at h ⊢
      exact hinv.done_ok i hi h
  · intro i hi h
    rw [setThread_eq] at h
    by_cases hit : i = tid
    · subst hit
      simp only [if_pos rfl] at h
      cases h
    · rw [if_neg hit] at h
      exact hinv.done_disk i hi h
  · intro hd i hi
    rw [setThread_eq]
    by_cases hit : i = tid
    · subst hit
      simpa using hinv.exec_pre hd i hi
    · rw [if_neg hit]
      exact hinv.exec_pre hd i hi
  · intro hd
    obtain ⟨i, hi, hr⟩ := hinv.exec_post hd
    refine ⟨i, hi, ?_⟩
    rw [setThread_eq]
    by_cases hit : i = tid
    · subst hit; simpa using hr
    · rw [if_neg hit]; exact hr
  · intro i j hi hj hri hrj
    rw [setThread_eq] at hri hrj
    by_cases h1 : i = tid <;> by_cases h2 : j = tid
    · rw [h1, h2]
    · rw [if_pos h1] at hri
      rw [if_neg h2] at hrj
      rw [h1]
      exact hinv.exec_uniq tid j htid' hj hri hrj
    · rw [if_neg h1] at hri
      rw [if_pos h2] at hrj
      rw [h2]
      exact hinv.exec_uniq i tid hi htid' hri hrj
    · rw [if_neg h1] at hri
      rw [if_neg h2] at hrj
      exact hinv.exec_uniq i j hi hj hri hrj

theorem c2Inv_step_waitlock (sd rp : String) (info : CloneInfo) (nn : Nat)
    (sys : Sys) (tid : Nat) (htid : tid < sys.n)
    (hpc : (sys.threads tid).pc = .waitLock)
    (hinv : C2Inv sd rp info nn sys) :
    C2Inv sd rp info nn (cloneStep rp info true sys tid) := by
  have htid' : tid < nn := hinv.n_eq ▸ htid
  rcases hlock : sys.lockHeld with _ | j
  case some =>
    rw [cloneStep_waitlock_blocked rp info true sys tid j htid hpc hlock]
    exact hinv
  case none =>
  rw [cloneStep_waitlock_acquire rp info true sys tid htid hpc hlock]
  have hdiskeq : (Mutex (cloneDirOf sys.svc.storageDir rp) sys.svc).2.disk =
      sys.svc.disk := Mutex_disk _ _
  have hsdeq : (Mutex (cloneDirOf sys.svc.storageDir rp) sys.svc).2.storageDir =
      sys.svc.storageDir := Mutex_storageDir _ _
  refine ⟨hinv.n_eq, ?_, ?_, ?_, ?_, ?_, ?_, ?_, ?_, ?_, ?_, ?_, ?_⟩
  · rw [show (setThread { sys with
        svc := (Mutex (cloneDirOf sys.svc.storageDir rp) sys.svc).2,
        lockHeld := some tid } tid
        { sys.threads tid with pc := .postCheck }).svc =
      (Mutex (cloneDirOf sys.svc.storageDir rp) sys.svc).2 from rfl, hsdeq]
    exact hinv.storage
  · rw [show (setThread { sys with
        svc := (Mutex (cloneDirOf sys.svc.storageDir rp) sys.svc).2,
        lockHeld := some tid } tid
        { sys.threads tid with pc := .postCheck }).svc =
      (Mutex (cloneDirOf sys.svc.storageDir rp) sys.svc).2 from rfl, hdiskeq]
    exact hinv.disk_rp
  · rw [show (setThread { sys with
        svc := (Mutex (cloneDirOf sys.svc.storageDir rp) sys.svc).2,
        lockHeld := some tid } tid
        { sys.threads tid with pc := .postCheck }).svc =
      (Mutex (cloneDirOf sys.svc.storageDir rp) sys.svc).2 from rfl, hdiskeq]
    exact hinv.disk_cd
  · intro i hl
    rw [show (setThread { sys with
        svc := (Mutex (cloneDirOf sys.svc.storageDir rp) sys.svc).2,
        lockHeld := some tid } tid
        { sys.threads tid with pc := .postCheck }).lockHeld = some tid from rfl] at hl
    cases hl
    refine ⟨htid', ?_⟩
    rw [setThread_eq, if_pos rfl]
    exact Or.inl rfl
  · intro i hi hh
    rw [setThread_eq] at hh
    by_cases h : i = tid
    · subst h; rfl
    · rw [if_neg h] at hh
      have := hinv.hold_lock i hi hh
      rw [hlock] at this
      cases this
  · intro i hi h
    rw [setThread_eq] at h
    by_cases hit : i = tid
    · subst hit
      simp only [if_pos rfl] at h
      cases h
    · rw [if_neg hit] at h
      rw [show (setThread { sys with
          svc := (Mutex (cloneDirOf sys.svc.storageDir rp) sys.svc).2,
          lockHeld := some tid } tid
          { sys.threads tid with pc := .postCheck }).svc =
        (Mutex (cloneDirOf sys.svc.storageDir rp) sys.svc).2 from rfl, hdiskeq]
      exact hinv.doclone_pre i hi h
  · intro i hi h
    rw [setThread_eq] at h
    by_cases hit : i = tid
    · subst hit
      simp only [if_pos rfl] at h
      cases h
    · rw [if_neg hit] at h
      rw [show (setThread { sys with
          svc := (Mutex (cloneDirOf sys.svc.storageDir rp) sys.svc).2,
          lockHeld := some tid } tid
          { sys.threads tid with pc := .postCheck }).svc =
        (Mutex (cloneDirOf sys.svc.storageDir rp) sys.svc).2 from rfl, hdiskeq]
      exact hinv.final_post i hi h
  · intro i hi h
    rw [setThread_eq] at h ⊢
    by_cases hit : i = tid
    · subst hit
      simp only [if_pos rfl] at h
      cases h
    · rw [if_neg hit] at h ⊢
      exact hinv.done_ok i hi h
  · intro i hi h
    rw [setThread_eq] at h
    by_cases hit : i = tid
    · subst hit
      simp only [if_pos rfl] at h
      cases h
    · rw [if_neg hit] at h
      rw [show (setThread { sys with
          svc := (Mutex (cloneDirOf sys.svc.storageDir rp) sys.svc).2,
          lockHeld := some tid } tid
          { sys.threads tid with pc := .postCheck }).svc =
        (Mutex (cloneDirOf sys.svc.storageDir rp) sys.svc).2 from rfl, hdiskeq]
      exact hinv.done_disk i hi h
  · intro hd i hi
    rw [show (setThread { sys with
        svc := (Mutex (cloneDirOf sys.svc.storageDir rp) sys.svc).2,
        lockHeld := some tid } tid
        { sys.threads tid with pc := .postCheck }).svc =
      (Mutex (cloneDirOf sys.svc.storageDir rp) sys.svc).2 from rfl, hdiskeq] at hd
    rw [setThread_eq]
    by_cases hit : i = tid
    · subst hit
      simpa using hinv.exec_pre hd i hi
    · rw [if_neg hit]
      exact hinv.exec_pre hd i hi
  · intro hd
    rw [show (setThread { sys with
        svc := (Mutex (cloneDirOf sys.svc.storageDir rp) sys.svc).2,
        lockHeld := some tid } tid
        { sys.threads tid with pc := .postCheck }).svc =
      (Mutex (cloneDirOf sys.svc.storageDir rp) sys.svc).2 from rfl, hdiskeq] at hd
    obtain ⟨i, hi, hr⟩ := hinv.exec_post hd
    refine ⟨i, hi, ?_⟩
    rw [setThread_eq]
    by_cases hit : i = tid
    · subst hit; simpa using hr
    · rw [if_neg hit]; exact hr
  · intro i j hi hj hri hrj
    rw [setThread_eq] at hri hrj
    by_cases h1 : i = tid <;> by_cases h2 : j = tid
    · rw [h1, h2]
    · rw [if_pos h1] at hri
      rw [if_neg h2] at hrj
      rw [h1]
      exact hinv.exec_uniq tid j htid' hj hri hrj
    · rw [if_neg h1] at hri
      rw [if_pos h2] at hrj
      rw [h2]
      exact hinv.exec_uniq i tid hi htid' hri hrj
    · rw [if_neg h1] at hri
      rw [if_neg h2] at hrj
      exact hinv.exec_uniq i j hi hj hri hrj

/-- Common case of a lock-holding thread completing (post-lock re-check hit
or final open): it returns an ok handle, releases the lock, and leaves the
disk unchanged. -/
theorem c2Inv_step_to_done (sd rp : String) (info : CloneInfo) (nn : Nat)
    (sys : Sys) (tid hid : Nat) (s2 : ServiceState)
    (htid' : tid < nn)
    (heq : cloneStep rp info true sys tid =
      setThread { sys with svc := s2, lockHeld := none } tid
        { sys.threads tid with pc := .done, res := some (.ok hid) })
    (hdisk2 : s2.disk = sys.svc.disk) (hsd2 : s2.storageDir = sys.svc.storageDir)
    (hgood : lookupKey sys.svc.disk (cloneDirOf sd rp) = some (goodEntry info))
    (hlock : sys.lockHeld = some tid)
    (hinv : C2Inv sd rp info nn sys) :
    C2Inv sd rp info nn (cloneStep rp info true sys tid) := by
  rw [heq]
  refine ⟨hinv.n_eq, ?_, ?_, ?_, ?_, ?_, ?_, ?_, ?_, ?_, ?_, ?_, ?_⟩
  · rw [show (setThread { sys with svc := s2, lockHeld := none } tid
        { sys.threads tid with pc := .done, res := some (.ok hid) }).svc = s2 from rfl,
      hsd2]
    exact hinv.storage
  · rw [show (setThread { sys with svc := s2, lockHeld := none } tid
        { sys.threads tid with pc := .done, res := some (.ok hid) }).svc = s2 from rfl,
      hdisk2]
    exact hinv.disk_rp
  · rw [show (setThread { sys with svc := s2, lockHeld := none } tid
        { sys.threads tid with pc := .done, res := some (.ok hid) }).svc = s2 from rfl,
      hdisk2]
    exact Or.inr hgood
  · intro i hl
    rw [show (setThread { sys with svc := s2, lockHeld := none } tid
        { sys.threads tid with pc := .done, res := some (.ok hid) }).lockHeld =
      none from rfl] at hl
    cases hl
  · intro i hi hh
    rw [setThread_eq] at hh
    by_cases hit : i = tid
    · rw [if_pos hit] at hh
      rcases hh with h | h | h <;> cases h
    · rw [if_neg hit] at hh
      have h2 := hinv.hold_lock i hi hh
      rw [hlock] at h2
      exact absurd (Option.some.inj h2).symm hit
  · intro i hi h
    rw [setThread_eq] at h
    by_cases hit : i = tid
    · rw [if_pos hit] at h
      cases h
    · rw [if_neg hit] at h
      have h2 := hinv.hold_lock i hi (Or.inr (Or.inl h))
      rw [hlock] at h2
      exact absurd (Option.some.inj h2).symm hit
  · intro i hi h
    rw [show (setThread { sys with svc := s2, lockHeld := none } tid
        { sys.threads tid with pc := .done, res := some (.ok hid) }).svc = s2 from rfl,
      hdisk2]
    exact hgood
  · intro i hi h
    rw [setThread_eq] at h ⊢
    by_cases hit : i = tid
    · rw [if_pos hit]
      exact ⟨hid, rfl⟩
    · rw [if_neg hit] at h ⊢
      exact hinv.done_ok i hi h
  · intro i hi h
    rw [show (setThread { sys with svc := s2, lockHeld := none } tid
        { sys.threads tid with pc := .done, res := some (.ok hid) }).svc = s2 from rfl,
      hdisk2]
    exact hgood
  · intro hd
    rw [show (setThread { sys with svc := s2, lockHeld := none } tid
        { sys.threads tid with pc := .done, res := some (.ok hid) }).svc = s2 from rfl,
      hdisk2, hgood] at hd
    cases hd
  · intro _
    obtain ⟨i, hi, hr⟩ := hinv.exec_post hgood
    refine ⟨i, hi, ?_⟩
    rw [setThread_eq]
    by_cases hit : i = tid
    · rw [if_pos hit]
      rw [hit] at hr
      exact hr
    · rw [if_neg hit]; exact hr
  · intro i j hi hj hri hrj
    rw [setThread_eq] at hri hrj
    by_cases h1 : i = tid <;> by_cases h2 : j = tid
    · rw [h1, h2]
    · rw [if_pos h1] at hri
      rw [if_neg h2] at hrj
      rw [h1]
      exact hinv.exec_uniq tid j htid' hj hri hrj
    · rw [if_neg h1] at hri
      rw [if_pos h2] at hrj
      rw [h2]
      exact hinv.exec_uniq i tid hi htid' hri hrj
    · rw [if_neg h1] at hri
      rw [if_neg h2] at hrj
      exact hinv.exec_uniq i j hi hj hri hrj

theorem c2Inv_step_postcheck (sd rp : String) (info : CloneInfo) (nn : Nat)
    (sys : Sys) (tid : Nat) (htid : tid < sys.n)
    (hpc : (sys.threads tid).pc = .postCheck)
    (hinv : C2Inv sd rp info nn sys) :
    C2Inv sd rp info nn (cloneStep rp info true sys tid) := by
  have htid' : tid < nn := hinv.n_eq ▸ htid
  have hlock : sys.lockHeld = some tid := hinv.hold_lock tid htid' (Or.inl hpc)
  rcases hinv.disk_cd with hmiss | hgood
  · -- the clone directory is still absent: move to the clone work
    have hmiss' : lookupKey sys.svc.disk (cloneDirOf sys.svc.storageDir rp) = none := by
      rw [hinv.storage]; exact hmiss
    rw [cloneStep_postcheck_miss rp info true sys tid htid hpc hmiss']
    refine ⟨hinv.n_eq, hinv.storage, hinv.disk_rp, hinv.disk_cd, ?_, ?_, ?_, ?_, ?_,
      ?_, ?_, ?_, ?_⟩
    · intro i hl
      obtain ⟨hi, hh⟩ := hinv.lock_some i hl
      refine ⟨hi, ?_⟩
      rw [setThread_eq]
      by_cases hit : i = tid
      · rw [if_pos hit]
        exact Or.inr (Or.inl rfl)
      · rw [if_neg hit]
        exact hh
    · intro i hi hh
      rw [setThread_eq] at hh
      by_cases hit : i = tid
      · rw [hit]
        exact hlock
      · rw [if_neg hit] at hh
        exact hinv.hold_lock i hi hh
    · intro i hi h
      exact hmiss
    · intro i hi h
      rw [setThread_eq] at h
      by_cases hit : i = tid
      · rw [if_pos hit] at h
        cases h
      · rw [if_neg hit] at h
        exact hinv.final_post i hi h
    · intro i hi h
      rw [setThread_eq] at h ⊢
      by_cases hit : i = tid
      · rw [if_pos hit] at h
        cases h
      · rw [if_neg hit] at h ⊢
        exact hinv.done_ok i hi h
    · intro i hi h
      rw [setThread_eq] at h
      by_cases hit : i = tid
      · rw [if_pos hit] at h
        cases h
      · rw [if_neg hit] at h
        exact hinv.done_disk i hi h
    · intro hd i hi
      rw [setThread_eq]
      by_cases hit : i = tid
      · rw [if_pos hit]
        have := hinv.exec_pre hd tid htid'
        exact this
      · rw [if_neg hit]
        exact hinv.exec_pre hd i hi
    · intro hd
      obtain ⟨i, hi, hr⟩ := hinv.exec_post hd
      refine ⟨i, hi, ?_⟩
      rw [setThread_eq]
      by_cases hit : i = tid
      · rw [if_pos hit]
        rw [hit] at hr
        exact hr
      · rw [if_neg hit]; exact hr
    · intro i j hi hj hri hrj
      rw [setThread_eq] at hri hrj
      by_cases h1 : i = tid <;> by_cases h2 : j = tid
      · rw [h1, h2]
      · rw [if_pos h1] at hri
        rw [if_neg h2] at hrj
        rw [h1]
        exact hinv.exec_uniq tid j htid' hj hri hrj
      · rw [if_neg h1] at hri
        rw [if_pos h2] at hrj
        rw [h2]
        exact hinv.exec_uniq i tid hi htid' hri hrj
      · rw [if_neg h1] at hri
        rw [if_neg h2] at hrj
        exact hinv.exec_uniq i j hi hj hri hrj
  · -- the clone directory already holds a completed clone: return it
    have hgood' : lookupKey sys.svc.disk (cloneDirOf sys.svc.storageDir rp) =
        some (Entry.dir (some info.vcs) true) := by
      rw [hinv.storage]; exact hgood
    obtain ⟨hid, s2, hopen, hdisk2, hsd2⟩ := openDir_good _ _ info.vcs hgood'
    exact c2Inv_step_to_done sd rp info nn sys tid hid s2 htid'
      (cloneStep_postcheck_hit rp info true sys tid hid s2 htid hpc hopen)
      hdisk2 hsd2 hgood hlock hinv

theorem c2Inv_step_finalopen (sd rp : String) (info : CloneInfo) (nn : Nat)
    (sys : Sys) (tid : Nat) (htid : tid < sys.n)
    (hpc : (sys.threads tid).pc = .finalOpen)
    (hinv : C2Inv sd rp info nn sys) :
    C2Inv sd rp info nn (cloneStep rp info true sys tid) := by
  have htid' : tid < nn := hinv.n_eq ▸ htid
  have hlock : sys.lockHeld = some tid :=
    hinv.hold_lock tid htid' (Or.inr (Or.inr hpc))
  have hgood := hinv.final_post tid htid' hpc
  have hgood' : lookupKey sys.svc.disk (cloneDirOf sys.svc.storageDir rp) =
      some (Entry.dir (some info.vcs) true) := by
    rw [hinv.storage]; exact hgood
  obtain ⟨hid, s2, hopen, hdisk2, hsd2⟩ := openDir_good _ _ info.vcs hgood'
  exact c2Inv_step_to_done sd rp info nn sys tid hid s2 htid'
    (cloneStep_finalopen rp info true sys tid hid s2 htid hpc hopen)
    hdisk2 hsd2 hgood hlock hinv

theorem c2Inv_step_doclone (sd rp : String) (info : CloneInfo) (nn : Nat)
    (sys : Sys) (tid : Nat) (htid : tid < sys.n)
    (hpc : (sys.threads tid).pc = .doClone)
    (h1 : rp ≠ cloneDirOf sd rp)
    (h2 : rp ≠ tempDirName (filepathDir (cloneDirOf sd rp))
      (filepathBase (cloneDirOf sd rp)))
    (h3 : rp ≠ filepathDir (cloneDirOf sd rp))
    (h5 : tempDirName (filepathDir (cloneDirOf sd rp)) (filepathBase (cloneDirOf sd rp)) ≠
      cloneDirOf sd rp)
    (hinv : C2Inv sd rp info nn sys) :
    C2Inv sd rp info nn (cloneStep rp info true sys tid) := by
  have htid' : tid < nn := hinv.n_eq ▸ htid
  have hlock : sys.lockHeld = some tid :=
    hinv.hold_lock tid htid' (Or.inr (Or.inl hpc))
  have hpre : lookupKey sys.svc.disk (cloneDirOf sd rp) = none :=
    hinv.doclone_pre tid htid' hpc
  have hcd : cloneDirOf sys.svc.storageDir rp = cloneDirOf sd rp := by
    rw [hinv.storage]
  have hDtarget : lookupKey
      (cloneToDisk (cloneDirOf sys.svc.storageDir rp) info true sys.svc.disk).2
      (cloneDirOf sd rp) = some (goodEntry info) := by
    rw [hcd]
    exact cloneToDisk_success_target _ _ _ h5
  have hDrp : lookupKey
      (cloneToDisk (cloneDirOf sys.svc.storageDir rp) info true sys.svc.disk).2 rp =
      none := by
    rw [hcd, cloneToDisk_success_frame _ _ _ _ h1 h2 h3]
    exact hinv.disk_rp
  rw [cloneStep_doclone rp info sys tid htid hpc]
  refine ⟨hinv.n_eq, hinv.storage, hDrp, Or.inr hDtarget, ?_, ?_, ?_, ?_, ?_, ?_, ?_,
    ?_, ?_⟩
  · intro i hl
    have hl' : sys.lockHeld = some i := hl
    rw [hlock] at hl'
    have hit : i = tid := (Option.some.inj hl').symm
    refine ⟨by rw [hit]; exact htid', ?_⟩
    rw [setThread_eq, if_pos hit]
    exact Or.inr (Or.inr rfl)
  · intro i hi hh
    rw [setThread_eq] at hh
    by_cases hit : i = tid
    · rw [hit]
      exact hlock
    · rw [if_neg hit] at hh
      exact hinv.hold_lock i hi hh
  · intro i hi h
    rw [setThread_eq] at h
    by_cases hit : i = tid
    · rw [if_pos hit] at h
      cases h
    · rw [if_neg hit] at h
      have hl2 := hinv.hold_lock i hi (Or.inr (Or.inl h))
      rw [hlock] at hl2
      exact absurd (Option.some.inj hl2).symm hit
  · intro i hi h
    exact hDtarget
  · intro i hi h
    rw [setThread_eq] at h ⊢
    by_cases hit : i = tid
    · rw [if_pos hit] at h
      cases h
    · rw [if_neg hit] at h ⊢
      exact hinv.done_ok i hi h
  · intro i hi h
    exact hDtarget
  · intro hd
    rw [show (setThread { sys with svc := { sys.svc with disk :=
        (cloneToDisk (cloneDirOf sys.svc.storageDir rp) info true sys.svc.disk).2 } } tid
        { sys.threads tid with pc := .finalOpen, ranExec := true }).svc.disk =
      (cloneToDisk (cloneDirOf sys.svc.storageDir rp) info true sys.svc.disk).2
      from rfl, hDtarget] at hd
    cases hd
  · intro _
    refine ⟨tid, htid', ?_⟩
    rw [setThread_eq, if_pos rfl]
  · intro i j hi hj hri hrj
    rw [setThread_eq] at hri hrj
    by_cases ha : i = tid <;> by_cases hb : j = tid
    · rw [ha, hb]
    · rw [if_neg hb] at hrj
      have := hinv.exec_pre hpre j hj
      rw [this] at hrj
      cases hrj
    · rw [if_neg ha] at hri
      have := hinv.exec_pre hpre i hi
      rw [this] at hri
      cases hri
    · rw [if_neg ha] at hri
      have := hinv.exec_pre hpre i hi
      rw [this] at hri
      cases hri

/-- One scheduled step preserves the invariant of `n` concurrent `Clone`
calls. -/
theorem c2Inv_step (sd rp : String) (info : CloneInfo) (nn : Nat)
    (sys : Sys) (tid : Nat)
    (h1 : rp ≠ cloneDirOf sd rp)
    (h2 : rp ≠ tempDirName (filepathDir (cloneDirOf sd rp))
      (filepathBase (cloneDirOf sd rp)))
    (h3 : rp ≠ filepathDir (cloneDirOf sd rp))
    (h5 : tempDirName (filepathDir (cloneDirOf sd rp)) (filepathBase (cloneDirOf sd rp)) ≠
      cloneDirOf sd rp)
    (hinv : C2Inv sd rp info nn sys) :
    C2Inv sd rp info nn (cloneStep rp info true sys tid) := by
  by_cases htid : tid < sys.n
  · rcases hpc : (sys.threads tid).pc
    · exact c2Inv_step_precheck sd rp info nn sys tid htid hpc hinv
    · exact c2Inv_step_waitlock sd rp info nn sys tid htid hpc hinv
    · exact c2Inv_step_postcheck sd rp info nn sys tid htid hpc hinv
    · exact c2Inv_step_doclone sd rp info nn sys tid htid hpc h1 h2 h3 h5 hinv
    · exact c2Inv_step_finalopen sd rp info nn sys tid htid hpc hinv
    · rw [cloneStep_done rp info true sys tid htid hpc]
      exact hinv
  · rw [cloneStep_oob rp info true sys tid htid]
    exact hinv

theorem c2Inv_run (sd rp : String) (info : CloneInfo) (nn : Nat)
    (sched : List Nat)
    (h1 : rp ≠ cloneDirOf sd rp)
    (h2 : rp ≠ tempDirName (filepathDir (cloneDirOf sd rp))
      (filepathBase (cloneDirOf sd rp)))
    (h3 : rp ≠ filepathDir (cloneDirOf sd rp))
    (h5 : tempDirName (filepathDir (cloneDirOf sd rp)) (filepathBase (cloneDirOf sd rp)) ≠
      cloneDirOf sd rp) :
    ∀ sys : Sys, C2Inv sd rp info nn sys →
      C2Inv sd rp info nn (runSched rp info true sys sched) := by
  induction sched with
  | nil => intro sys hinv; exact hinv
  | cons tid rest ih =>
    intro sys hinv
    exact ih (cloneStep rp info true sys tid)
      (c2Inv_step sd rp info nn sys tid h1 h2 h3 h5 hinv)

/-- C2: for an identity with no existing clone directory, among `n`
concurrent `Clone` calls (modelled as `n` threads stepped by an arbitrary
scheduler, each decomposed at its blocking points, with a succeeding Clone
Executor), any schedule under which all threads complete yields exactly one
thread that invoked the Clone Executor, and every thread returns a handle
with no error.  Threads that do not clone block on the per-directory lock
(`waitLock` steps make no progress while another thread holds it) and
observe the completed clone through the post-lock re-check or the final
open. -/
theorem C2_exactly_one_executor (sd rp : String) (info : CloneInfo) (n : Nat)
    (svc : ServiceState) (sched : List Nat)
    (hn : 0 < n)
    (hsd : svc.storageDir = sd)
    (hd_rp : lookupKey svc.disk rp = none)
    (hd_cd : lookupKey svc.disk (cloneDirOf sd rp) = none)
    (h1 : rp ≠ cloneDirOf sd rp)
    (h2 : rp ≠ tempDirName (filepathDir (cloneDirOf sd rp))
      (filepathBase (cloneDirOf sd rp)))
    (h3 : rp ≠ filepathDir (cloneDirOf sd rp))
    (h5 : tempDirName (filepathDir (cloneDirOf sd rp)) (filepathBase (cloneDirOf sd rp)) ≠
      cloneDirOf sd rp)
    (hdone : ∀ i, i < n →
      ((runSched rp info true (initSys n svc) sched).threads i).pc = .done) :
    (∃! i, i < n ∧
      ((runSched rp info true (initSys n svc) sched).threads i).ranExec = true) ∧
    (∀ i, i < n → ∃ hid,
      ((runSched rp info true (initSys n svc) sched).threads i).res =
        some (.ok hid)) := by
  have hinv := c2Inv_run sd rp info n sched h1 h2 h3 h5 (initSys n svc)
    (c2Inv_init sd rp info n svc hsd hd_rp hd_cd)
  constructor
  · have hgood : lookupKey (runSched rp info true (initSys n svc) sched).svc.disk
        (cloneDirOf sd rp) = some (goodEntry info) :=
      hinv.done_disk 0 hn (hdone 0 hn)
    obtain ⟨i, hi, hr⟩ := hinv.exec_post hgood
    exact ⟨i, ⟨hi, hr⟩, fun j hj => hinv.exec_uniq j i hj.1 hi hj.2 hr⟩
  · intro i hi
    exact hinv.done_ok i hi (hdone i hi)

/-- A schedule completing two concurrent Clones: thread 0 clones while
thread 1 blocks on the lock (its fifth step makes no progress), then
thread 1 acquires the lock and observes the completed clone. -/
def c2Sched : List Nat := [0, 1, 0, 0, 1, 0, 0, 1, 1]

theorem C2_exactly_one_executor_witness :
    (∀ i, i < 2 →
      ((runSched "r" ⟨"git", "u"⟩ true (initSys 2 c4State) c2Sched).threads i).pc =
        TPC.done) ∧
    ((∃! i, i < 2 ∧
      ((runSched "r" ⟨"git", "u"⟩ true (initSys 2 c4State) c2Sched).threads i).ranExec =
        true) ∧
    (∀ i, i < 2 → ∃ hid,
      ((runSched "r" ⟨"git", "u"⟩ true (initSys 2 c4State) c2Sched).threads i).res =
        some (.ok hid))) :=
  ⟨by decide,
   C2_exactly_one_executor "repos" "r" ⟨"git", "u"⟩ 2 c4State c2Sched (by decide) rfl
     rfl rfl (by decide) (by decide) (by decide) (by decide) (by decide)⟩

end Vcsstore
